import Mathlib

/-!
# Form data store (`sys/form/datamanager.go`)

A shallow embedding of the `DataManager` of package `form` and a verification
of its contract.

Modelling conventions

* A Go `map[string]T` is an association list `GoMap T`.  The order of the list
  stands for the order in which one `range` loop visits the entries, which Go
  leaves unspecified; a statement quantified over all stores therefore covers
  every iteration order.  A lookup takes the first entry of a key, a store
  replaces it in place or appends a new entry, `delete` drops every entry of
  the key.
* A Go `interface{}` is a `Value`; the nil interface is `Value.null`.
* Package `file` (descriptor `file.IO`, record `file.MapIO`, `file.Meta`) is
  imported by the source and is modelled from the specification (sections 3,
  4.1, 4.2 and 6).
* The store is embedded at two levels.  `HeapDataManager` keeps the map objects
  of the records apart from the references to them, as Go does: two
  identifiers can hold the same map object, and a write through one shows
  under the other.  `DataManager` is the store in which every identifier has a
  map object of its own (the ownership rule of section 3: the store owns the
  mapping, a record owns its field values); there a record is held by value in
  its slot and an in-place mutation through the Go reference is a write back
  to that slot.  The theorems `view_PutDataWithoutMerge`, `view_PutData` and
  `view_PutDataFile` show that the operations of `HeapDataManager`, seen by
  value, are those of `DataManager` whenever the record written to is held by
  one identifier only.  A descriptor is held by value in the field that owns
  it.
* The `sync.RWMutex` is not part of the sequential state; every operation is
  modelled as one atomic step.  The calls an operation makes on the lock and
  its accesses to the top-level mapping are recorded apart, as a run of
  `LockEvent`s in program order.
* The disk is a mapping from path to bytes and is threaded through the
  operations that touch it.
-/

/-! ## Go maps -/

/-- A Go map with string keys, in the iteration order of one run. -/
abbrev GoMap (β : Type) := List (String × β)

namespace GoMap

/-- The Go index expression `m[k]` with the comma-ok result: the value of the
first entry of `k`. -/
def lookup {β : Type} : GoMap β → String → Option β
  | [], _ => none
  | (k', v) :: t, k => if k' = k then some v else lookup t k

/-- The Go assignment `m[k] = v`: replaces the value of `k` where it stands, or
adds a new entry. -/
def store {β : Type} : GoMap β → String → β → GoMap β
  | [], k, v => [(k, v)]
  | (k', v') :: t, k, v => if k' = k then (k, v) :: t else (k', v') :: store t k v

/-- The Go builtin `delete(m, k)`. -/
def remove {β : Type} (m : GoMap β) (k : String) : GoMap β :=
  m.filter (fun e => decide (e.1 ≠ k))

/-- The keys of the map, in iteration order. -/
def keys {β : Type} (m : GoMap β) : List String :=
  m.map Prod.fst

/-- A list is a map when no key occurs twice. -/
def WF {β : Type} (m : GoMap β) : Prop :=
  (keys m).Nodup

end GoMap

/-! ## Package `file`, modelled from the specification -/

/-- Modelled from the spec: `file.Meta`, the metadata supplied with an upload
(section 4.3, PutFile: "file metadata"; section 6: name, contentType, size). -/
structure file.Meta where
  Name : String
  ContentType : String
  Size : Int
deriving DecidableEq, Repr

/-- Modelled from the spec: `file.IO`, the File Descriptor of section 3:
original file name, content type, byte size and the on-disk location, which is
the base directory plus a generated unique suffix. -/
structure file.IO where
  baseFilePath : String
  path : String
  name : String
  contentType : String
  size : Int
deriving DecidableEq, Repr

/-- A Go `interface{}` value held in a record: the nil interface, a scalar, a
nested `map[string]interface{}`, or a File Descriptor (`*file.IO`). -/
inductive Value where
  | null : Value
  | str (s : String) : Value
  | num (n : Int) : Value
  | bool (b : Bool) : Value
  | file (f : file.IO) : Value
  | map (m : List (String × Value)) : Value

/-- Modelled from the spec: `file.MapIO`, the Record of section 3.  It is a Go
map type (the source assigns a `map[string]interface{}` to a slot of type
`file.MapIO`), so it can be the nil map: `none`. -/
abbrev file.MapIO := Option (GoMap Value)

/-- The Go `error` values the store returns; a nil error is `none`. -/
inductive Error where
  | ErrInvalid : Error
  | ErrNotExist : Error
  | ioFailure (path : String) : Error
deriving DecidableEq, Repr

/-- The disk: the bytes stored at each path, and whether a path can be opened
for writing. -/
structure Disk where
  content : String → Option (List Nat)
  writable : String → Bool

/-- An input stream (`io.Reader`): the bytes it delivers, and whether it
reports an error after delivering them. -/
structure Reader where
  data : List Nat
  fails : Bool
deriving DecidableEq, Repr

/-- Modelled from the spec: `(*file.IO).Path`, the on-disk location
`<baseDirectory>/<generated-unique-id>` of section 6. -/
def file.IO.Path (me : file.IO) : String :=
  me.baseFilePath ++ "/" ++ me.path

/-- Modelled from the spec: `file.New(baseDir, meta)`, section 4.1 Create: a
new descriptor for `meta` with a freshly generated path under `baseDir`.  The
token drawn by the generator on this call is the argument `uid`. -/
def file.New (baseFilePath : String) (f : file.Meta) (uid : String) : file.IO :=
  { baseFilePath := baseFilePath, path := uid, name := f.Name,
    contentType := f.ContentType, size := f.Size }

/-- Modelled from the spec: `(*file.IO).Update`, section 4.1: mutates only the
in-memory name and content type. -/
def file.IO.Update (me : file.IO) (name contentType : String) : file.IO :=
  { me with name := name, contentType := contentType }

/-- Modelled from the spec: `(*file.IO).Write`, section 4.1: opens the
descriptor's path for writing, copies all bytes of the stream over the existing
content and returns the count of bytes written; it fails with an I/O error if
the path is unwritable or the stream errors mid-copy.  The byte size of the
descriptor follows the bytes written (section 3: size is updated in place when
a file is overwritten).  Result: descriptor, disk, bytes written, error. -/
def file.IO.Write (me : file.IO) (fs : Disk) (reader : Reader) :
    file.IO × Disk × Int × Option Error :=
  if fs.writable me.Path then
    let fs' : Disk :=
      { fs with content := fun p => if p = me.Path then some reader.data else fs.content p }
    let written : Int := (reader.data.length : Int)
    ({ me with size := written }, fs', written,
      if reader.fails then some (Error.ioFailure me.Path) else none)
  else
    (me, fs, 0, some (Error.ioFailure me.Path))

/-- Modelled from the spec: `(*file.IO).ToMap`, section 4.1: the plain
key/value view of a descriptor (section 6: keys name, contentType, size, path).
The source passes `true` for the compact export, whose path is the bare
generated id; `false` gives the absolute path. -/
def file.IO.ToMap (me : file.IO) (pathNameOnly : Bool) : GoMap Value :=
  [("name", Value.str me.name), ("contentType", Value.str me.contentType),
   ("size", Value.num me.size),
   ("path", Value.str (if pathNameOnly then me.path else me.Path))]

/-- Modelled from the spec: `file.IsFileInfo`, section 4.1 Detect: the mapping
has the keys name, contentType, size and path. -/
def file.IsFileInfo (m : GoMap Value) : Bool :=
  (GoMap.lookup m "name").isSome && (GoMap.lookup m "contentType").isSome &&
  (GoMap.lookup m "size").isSome && (GoMap.lookup m "path").isSome

/-- The string held under a key of a generic map, empty when it is no string. -/
def file.strField (m : GoMap Value) (k : String) : String :=
  match GoMap.lookup m k with
  | some (Value.str s) => s
  | _ => ""

/-- The integer held under a key of a generic map, zero when it is no number. -/
def file.numField (m : GoMap Value) (k : String) : Int :=
  match GoMap.lookup m k with
  | some (Value.num n) => n
  | _ => 0

/-- Modelled from the spec: `file.FromMap`, the rehydration of the glossary:
converts a generic loaded map into a live File Descriptor bound to a base
directory. -/
def file.FromMap (baseFilePath : String) (m : GoMap Value) : file.IO :=
  { baseFilePath := baseFilePath, path := file.strField m "path",
    name := file.strField m "name", contentType := file.strField m "contentType",
    size := file.numField m "size" }

/-- A Go runtime panic. -/
inductive Panic where
  | assignmentToNilMap : Panic
deriving DecidableEq, Repr

/-- Modelled from the spec: `(file.MapIO).MergeWith`, section 4.2: for each
field of the delta, overwrite the corresponding field of the record, inserting
it if absent; other fields are untouched.  The record is a Go map mutated in
place, so inserting into the nil map is a runtime panic. -/
def file.MapIO.MergeWith (me : file.MapIO) (m : GoMap Value) : Except Panic file.MapIO :=
  match me with
  | some r => Except.ok (some (m.foldl (fun acc e => GoMap.store acc e.1 e.2) r))
  | none =>
    match m with
    | [] => Except.ok none
    | _ :: _ => Except.error Panic.assignmentToNilMap

/-- Modelled from the spec: `(file.MapIO).GetFileInfo`, section 4.3 GetFile: the
File Descriptor held by the field, nil when the field is absent or holds no
descriptor. -/
def file.MapIO.GetFileInfo (me : file.MapIO) (_baseFilePath name : String) :
    Option file.IO :=
  match me with
  | none => none
  | some r =>
    match GoMap.lookup r name with
    | some (Value.file fi) => some fi
    | _ => none

/-- The rehydration of one field value: a plain mapping of descriptor shape
becomes a live descriptor, any other value stays. -/
def file.rehydrate (baseFilePath : String) (v : Value) : Value :=
  match v with
  | Value.map fileMap =>
    if file.IsFileInfo fileMap then Value.file (file.FromMap baseFilePath fileMap) else v
  | _ => v

/-- Modelled from the spec: `(file.MapIO).MakeFileInfos`, section 4.2: scans all
fields and replaces every plain mapping of descriptor shape by a live File
Descriptor bound to `baseDir`. -/
def file.MapIO.MakeFileInfos (me : file.MapIO) (baseFilePath : String) : file.MapIO :=
  match me with
  | none => none
  | some r => some (r.map (fun e => (e.1, file.rehydrate baseFilePath e.2)))

/-- The segments of a dotted path. -/
def file.splitPath : List Char → List Char → List String
  | [], cur => [String.mk cur.reverse]
  | c :: cs, cur =>
    if c = '.' then String.mk cur.reverse :: file.splitPath cs [] else file.splitPath cs (c :: cur)

/-- The walk of a segmented path through nested mappings; the nil interface
when a segment is missing. -/
def file.walk : List String → Value → Value
  | [], v => v
  | seg :: rest, Value.map m =>
    match GoMap.lookup m seg with
    | some v => file.walk rest v
    | none => Value.null
  | _ :: _, _ => Value.null

/-- Modelled from the spec: `(file.MapIO).Get`, section 4.2: resolves a dotted
path into nested structures, or to a File Descriptor if the path ends at a file
field; absent (the nil interface, not an error) if any segment is missing. -/
def file.MapIO.Get (me : file.MapIO) (path : String) : Value :=
  match me with
  | none => Value.null
  | some r => file.walk (file.splitPath path.toList []) (Value.map r)

/-- The Go `os.IsNotExist` on the errors of this package. -/
def os.IsNotExist (err : Option Error) : Bool :=
  match err with
  | some Error.ErrNotExist => true
  | _ => false

/-! ## The store (`sys/form/datamanager.go`) -/

/-- The store: the mapping from submission identifier to record, the base
directory of the uploaded files, and the flag of the one-time rehydration. -/
structure DataManager where
  DataCluster : GoMap file.MapIO
  BaseFilePath : String
  madeFileInfos : Bool

/-- Source `NewDataManager`: an empty store bound to a base directory. -/
def NewDataManager (baseFilePath : String) : DataManager :=
  { BaseFilePath := baseFilePath, DataCluster := [], madeFileInfos := false }

namespace DataManager

/-- The Go index expression `me.DataCluster[formID]` without the comma-ok
result: the nil map when the identifier has no entry. -/
def record (me : DataManager) (formID : String) : file.MapIO :=
  match GoMap.lookup me.DataCluster formID with
  | some mapIo => mapIo
  | none => none

/-- Source `GetDataFile`: the descriptor held by field `name` of record `formID`. -/
def GetDataFile (me : DataManager) (formID name : String) : Option file.IO × Option Error :=
  if formID ≠ "" ∧ name ≠ "" then
    match GoMap.lookup me.DataCluster formID with
    | some mapIo =>
      match mapIo.GetFileInfo me.BaseFilePath name with
      | some fi => (some fi, none)
      | none => (none, some Error.ErrNotExist)
    | none => (none, some Error.ErrNotExist)
  else
    (none, some Error.ErrInvalid)

/-- One step of the loop of `GetDataFiles`: a field that holds a descriptor is
entered into `files`. -/
def filesStep (files : GoMap file.IO) (e : String × Value) : GoMap file.IO :=
  match e.2 with
  | Value.file fileInfo => GoMap.store files e.1 fileInfo
  | _ => files

/-- Source `GetDataFiles`: the descriptors of record `formID`, by field name; the nil
map when the identifier has no entry. -/
def GetDataFiles (me : DataManager) (formID _baseUri : String) :
    Option (GoMap file.IO) × Option Error :=
  if formID ≠ "" then
    match GoMap.lookup me.DataCluster formID with
    | some formDataMap => (some ((formDataMap.getD []).foldl filesStep []), none)
    | none => (none, none)
  else
    (none, some Error.ErrInvalid)

/-- Source `GetData`: the record of `formID`, the nil map when there is none. -/
def GetData (me : DataManager) (formID : String) : file.MapIO × Option Error :=
  if formID ≠ "" then (me.record formID, none) else (none, some Error.ErrInvalid)

/-- Source `Clear`: removes the entry of `formID`. -/
def Clear (me : DataManager) (formID : String) : DataManager × Option Error :=
  if formID ≠ "" then
    ({ me with DataCluster := GoMap.remove me.DataCluster formID }, none)
  else
    (me, some Error.ErrInvalid)

/-- Source `GetDataByPath`: the value a path resolves to in record `formID`. -/
def GetDataByPath (me : DataManager) (formID dataPath : String) : Value × Option Error :=
  if formID ≠ "" then
    match GoMap.lookup me.DataCluster formID with
    | some mapIo => (mapIo.Get dataPath, none)
    | none => (Value.null, none)
  else
    (Value.null, some Error.ErrInvalid)

/-- One step of the inner loop of `GetAllData`: a descriptor is entered as it
is, a mapping of descriptor shape is entered as the descriptor made from it,
any other value (the nil interface too) is entered unchanged. -/
def allDataStep (baseFilePath : String) (dat : GoMap Value) (e : String × Value) :
    GoMap Value :=
  match e.2 with
  | Value.file fileInfo => GoMap.store dat e.1 (Value.file fileInfo)
  | Value.map fileMap =>
    if file.IsFileInfo fileMap then
      GoMap.store dat e.1 (Value.file (file.FromMap baseFilePath fileMap))
    else
      GoMap.store dat e.1 e.2
  | _ => GoMap.store dat e.1 e.2

/-- Source `GetAllData`: the fields of all records in one mapping; nil when the store
has no entry. -/
def GetAllData (me : DataManager) : Option (GoMap Value) × Option Error :=
  if me.DataCluster.length > 0 then
    (some (me.DataCluster.foldl
      (fun dat c => (c.2.getD []).foldl (allDataStep me.BaseFilePath) dat) []), none)
  else
    (none, none)

/-- One step of the inner loop of `GetAllDataFilePathNameOnly`, on the pair of
`dat` and `files`: a descriptor adds its path to `files` and its compact map to
`dat`, any other value is entered into `dat` unchanged. -/
def pathNameOnlyStep (acc : GoMap Value × List String) (e : String × Value) :
    GoMap Value × List String :=
  match e.2 with
  | Value.file fileInfo =>
    (GoMap.store acc.1 e.1 (Value.map (fileInfo.ToMap true)), acc.2 ++ [fileInfo.Path])
  | _ => (GoMap.store acc.1 e.1 e.2, acc.2)

/-- Source `GetAllDataFilePathNameOnly`: the fields of all records with descriptors in
compact form, and the list of the paths of all descriptors; both nil when the
store has no entry. -/
def GetAllDataFilePathNameOnly (me : DataManager) : Option (GoMap Value) × List String :=
  if me.DataCluster.length > 0 then
    let r := me.DataCluster.foldl
      (fun acc c => (c.2.getD []).foldl pathNameOnlyStep acc) (([] : GoMap Value), ([] : List String))
    (some r.1, r.2)
  else
    (none, [])

/-- One step of the inner loop of `GetAllDataFile`, on the pair of `dat` and
`files`: a descriptor is entered into `files`, any other value into `dat`. -/
def allDataFileStep (acc : GoMap Value × GoMap file.IO) (e : String × Value) :
    GoMap Value × GoMap file.IO :=
  match e.2 with
  | Value.file fileInfo => (acc.1, GoMap.store acc.2 e.1 fileInfo)
  | _ => (GoMap.store acc.1 e.1 e.2, acc.2)

/-- Source `GetAllDataFile`: the fields of all records, split into the values that are
no descriptors and the descriptors; both nil when the store has no entry. -/
def GetAllDataFile (me : DataManager) (_baseUri : String) :
    Option (GoMap Value) × Option (GoMap file.IO) × Option Error :=
  if me.DataCluster.length = 0 then
    (none, none, none)
  else
    let r := me.DataCluster.foldl
      (fun acc c => (c.2.getD []).foldl allDataFileStep acc) (([] : GoMap Value), ([] : GoMap file.IO))
    (some r.1, some r.2, none)

/-- Source `PutData`: merges `dat` into the record of `formID`, or into a new record
when the identifier has no entry.  The record is mutated in place, so the
merged record is the one the store holds afterwards.  This is the store in
which the map object of `formID` is held by no other identifier;
`HeapDataManager.PutData` is the operation on map references, and
`view_PutData` relates the two. -/
def PutData (me : DataManager) (formID : String) (dat : GoMap Value) :
    Except Panic (DataManager × Option Error) :=
  if formID ≠ "" then
    match GoMap.lookup me.DataCluster formID with
    | some mapIo =>
      match mapIo.MergeWith dat with
      | Except.ok merged =>
        Except.ok ({ me with DataCluster := GoMap.store me.DataCluster formID merged }, none)
      | Except.error p => Except.error p
    | none =>
      match file.MapIO.MergeWith (some []) dat with
      | Except.ok mapIo =>
        Except.ok ({ me with DataCluster := GoMap.store me.DataCluster formID mapIo }, none)
      | Except.error p => Except.error p
  else
    Except.ok (me, some Error.ErrInvalid)

/-- Source `PutDataWithoutMerge`: makes `dat` the record of `formID`. -/
def PutDataWithoutMerge (me : DataManager) (formID : String) (dat : file.MapIO) :
    DataManager × Option Error :=
  if formID ≠ "" then
    ({ me with DataCluster := GoMap.store me.DataCluster formID dat }, none)
  else
    (me, some Error.ErrInvalid)

/-- The head of `PutDataFile` under the write lock: `formDataMap` is
`me.DataCluster[formID]`, and a nil map is replaced by a new empty map that is
entered into the store.  Result: `formDataMap` and the mapping of the store. -/
def ensureRecord (me : DataManager) (formID : String) : GoMap Value × GoMap file.MapIO :=
  match me.record formID with
  | some formDataMap => (formDataMap, me.DataCluster)
  | none => ([], GoMap.store me.DataCluster formID (some []))

/-- Source `PutDataFile`: stores an upload under field `name` of record `formID`.
Result: store, disk, bytes written, error.  `uid` is the token `file.New` draws
when it is called.  The first branch is the source's `else`: the error is not
not-found and `existingFileInfo` is not nil; the descriptor updated and written
through `existingFileInfo` is the one the field holds, so the field holds the
updated descriptor afterwards.  The second branch is the source's `then`: a
new descriptor is written and entered into `formDataMap`.  This is the store in
which the map object of `formID` is held by no other identifier;
`HeapDataManager.PutDataFile` is the operation on map references, and
`view_PutDataFile` relates the two. -/
def PutDataFile (me : DataManager) (fs : Disk) (formID name : String) (f : file.Meta)
    (reader : Reader) (uid : String) : DataManager × Disk × Int × Option Error :=
  let got := me.GetDataFile formID name
  let existingFileInfo := got.1
  let err := got.2
  let made := me.ensureRecord formID
  let formDataMap := made.1
  let cluster := made.2
  match os.IsNotExist err, existingFileInfo with
  | false, some existing =>
    let w := (existing.Update f.Name f.ContentType).Write fs reader
    ({ me with DataCluster :=
        GoMap.store cluster formID (some (GoMap.store formDataMap name (Value.file w.1))) },
      w.2.1, w.2.2.1, w.2.2.2)
  | _, _ =>
    let w := (file.New me.BaseFilePath f uid).Write fs reader
    ({ me with DataCluster :=
        GoMap.store cluster formID (some (GoMap.store formDataMap name (Value.file w.1))) },
      w.2.1, w.2.2.1, w.2.2.2)

/-- Source `mkFileInfos`: the one-time rehydration pass over all records. -/
def mkFileInfos (me : DataManager) : DataManager :=
  if !me.madeFileInfos then
    { me with
      DataCluster := me.DataCluster.map (fun c => (c.1, c.2.MakeFileInfos me.BaseFilePath)),
      madeFileInfos := true }
  else
    me

/-- Source `OnLoad`: runs the rehydration pass. -/
def OnLoad (me : DataManager) : DataManager :=
  me.mkFileInfos

/-- Source `Close`: nothing to release. -/
def Close (_me : DataManager) : Option Error :=
  none

end DataManager

/-- The Go index expression `me[k]` on a record, with the comma-ok result; the
nil map has no field. -/
def file.MapIO.field (me : file.MapIO) (k : String) : Option Value :=
  match me with
  | none => none
  | some r => GoMap.lookup r k

/-! ## Streaming a file back -/

/-- An output stream (`io.Writer`) that takes every byte: the bytes written to
it so far. -/
structure io.Writer where
  data : List Nat
deriving DecidableEq, Repr

/-- Source `GetDataFileWriter`: copies the file of field `name` of record
`formID` to `writer`.  Result: bytes copied, descriptor, error, and the writer
afterwards.  With a nil error of `GetDataFile` and a non-nil writer the file at
the path of the descriptor is opened read-only (not found when the disk has no
file there), its length is taken from `Stat`, and `io.CopyN` copies that many
bytes.  `GetDataFile` never returns a nil descriptor with a nil error. -/
def DataManager.GetDataFileWriter (me : DataManager) (fs : Disk) (formID name : String)
    (writer : Option io.Writer) : Int × Option file.IO × Option Error × Option io.Writer :=
  if formID ≠ "" ∧ name ≠ "" then
    let got := me.GetDataFile formID name
    match got.2, got.1, writer with
    | none, some f, some w =>
      match fs.content f.Path with
      | none => (0, some f, some Error.ErrNotExist, writer)
      | some bytes => ((bytes.length : Int), some f, none, some { data := w.data ++ bytes })
    | _, _, _ => (0, got.1, got.2, writer)
  else
    (0, none, some Error.ErrInvalid, writer)

/-! ## Runs of the public operations -/

/-- One call of a public operation that can change the store.  A call of
`PutData` that panics is no step. -/
inductive Step : DataManager → DataManager → Prop where
  | onLoad (me : DataManager) : Step me me.OnLoad
  | clear (me : DataManager) (formID : String) : Step me (me.Clear formID).1
  | putData (me me' : DataManager) (formID : String) (dat : GoMap Value) (err : Option Error) :
      me.PutData formID dat = Except.ok (me', err) → Step me me'
  | putDataWithoutMerge (me : DataManager) (formID : String) (dat : file.MapIO) :
      Step me (me.PutDataWithoutMerge formID dat).1
  | putDataFile (me : DataManager) (fs : Disk) (formID name : String) (f : file.Meta)
      (reader : Reader) (uid : String) :
      Step me (me.PutDataFile fs formID name f reader uid).1

/-- The store states reachable from `NewDataManager` through the public
operations. -/
def Reachable (me : DataManager) : Prop :=
  ∃ baseFilePath, Relation.ReflTransGen Step (NewDataManager baseFilePath) me

/-! ## The lock -/

/-- What an operation does with the `sync.RWMutex` and with the top-level
mapping `me.DataCluster`, in program order. -/
inductive LockEvent where
  | RLock : LockEvent
  | RUnlock : LockEvent
  | Lock : LockEvent
  | Unlock : LockEvent
  | readMap : LockEvent
  | writeMap : LockEvent
deriving DecidableEq, Repr

/-- The lock the running operation holds. -/
inductive Held where
  | nothing : Held
  | read : Held
  | write : Held
deriving DecidableEq, Repr

/-- The rule of section 5 on a run of events: the mapping is read only with the
read lock or the write lock held, and a top-level entry is inserted, removed or
replaced only with the write lock held. -/
def disciplined : Held → List LockEvent → Bool
  | _, [] => true
  | _, LockEvent.RLock :: t => disciplined Held.read t
  | _, LockEvent.RUnlock :: t => disciplined Held.nothing t
  | _, LockEvent.Lock :: t => disciplined Held.write t
  | _, LockEvent.Unlock :: t => disciplined Held.nothing t
  | h, LockEvent.readMap :: t => decide (h ≠ Held.nothing) && disciplined h t
  | h, LockEvent.writeMap :: t => decide (h = Held.write) && disciplined h t

namespace DataManager

/-- The events of `GetDataFile` (lines 29-43): with non-empty keys the lookup
runs between `RLock` and `RUnlock`. -/
def GetDataFile.events (formID name : String) : List LockEvent :=
  if formID ≠ "" ∧ name ≠ "" then
    [LockEvent.RLock, LockEvent.readMap, LockEvent.RUnlock]
  else []

/-- The events of `GetDataFiles` (lines 45-63). -/
def GetDataFiles.events (formID : String) : List LockEvent :=
  if formID ≠ "" then [LockEvent.RLock, LockEvent.readMap, LockEvent.RUnlock] else []

/-- The events of `GetDataFileWriter` (lines 65-90): those of its call of
`GetDataFile`. -/
def GetDataFileWriter.events (formID name : String) : List LockEvent :=
  if formID ≠ "" ∧ name ≠ "" then GetDataFile.events formID name else []

/-- The events of `GetData` (lines 92-99): `RLock`, the deferred `RUnlock` runs
after the lookup. -/
def GetData.events (formID : String) : List LockEvent :=
  if formID ≠ "" then [LockEvent.RLock, LockEvent.readMap, LockEvent.RUnlock] else []

/-- The events of `Clear` (lines 101-109): `me.RLock()`, `defer me.RUnlock()`,
then `delete(me.DataCluster, formID)`; the deferred unlock runs at the return. -/
def Clear.events (formID : String) : List LockEvent :=
  if formID ≠ "" then [LockEvent.RLock, LockEvent.writeMap, LockEvent.RUnlock] else []

/-- The events of `GetDataByPath` (lines 111-121). -/
def GetDataByPath.events (formID : String) : List LockEvent :=
  if formID ≠ "" then [LockEvent.RLock, LockEvent.readMap, LockEvent.RUnlock] else []

/-- The events of `GetAllData`, `GetAllDataFilePathNameOnly` and
`GetAllDataFile` (lines 135-218): `RLock`, the length and the range over the
mapping, the deferred `RUnlock`. -/
def GetAll.events : List LockEvent :=
  [LockEvent.RLock, LockEvent.readMap, LockEvent.RUnlock]

/-- The events of `PutData` (lines 220-234): under `Lock` the lookup, and the
assignment of a new record when the identifier has no entry.  A panic of
`MergeWith` ends the run before `Unlock`. -/
def PutData.events (me : DataManager) (formID : String) (dat : GoMap Value) :
    List LockEvent :=
  if formID ≠ "" then
    match GoMap.lookup me.DataCluster formID with
    | some mapIo =>
      match mapIo.MergeWith dat with
      | Except.ok _ => [LockEvent.Lock, LockEvent.readMap, LockEvent.Unlock]
      | Except.error _ => [LockEvent.Lock, LockEvent.readMap]
    | none => [LockEvent.Lock, LockEvent.readMap, LockEvent.writeMap, LockEvent.Unlock]
  else []

/-- The events of `PutDataWithoutMerge` (lines 236-244). -/
def PutDataWithoutMerge.events (formID : String) : List LockEvent :=
  if formID ≠ "" then [LockEvent.Lock, LockEvent.writeMap, LockEvent.Unlock] else []

/-- The events of `PutDataFile` (lines 246-268): the call of `GetDataFile`, then
under `Lock` the lookup and, for a nil record, the assignment of a new one. -/
def PutDataFile.events (me : DataManager) (formID name : String) : List LockEvent :=
  GetDataFile.events formID name ++
    (match me.record formID with
      | some _ => [LockEvent.Lock, LockEvent.readMap, LockEvent.Unlock]
      | none => [LockEvent.Lock, LockEvent.readMap, LockEvent.writeMap, LockEvent.Unlock])

end DataManager

/-! ## The record a merge goes into -/

/-- The record `PutData` merges into (lines 223-227): the record the identifier
has, or a new empty record when the identifier has no entry. -/
def DataManager.mergeTarget (me : DataManager) (formID : String) : file.MapIO :=
  match GoMap.lookup me.DataCluster formID with
  | some mapIo => mapIo
  | none => some []

/-! ## The store with shared records

A Go map is a reference: `PutDataWithoutMerge` keeps the map the caller passes
(line 239) and `GetData` hands out the map the store holds (line 96), so two
identifiers can hold the same map object, and a write through one of them
(lines 224 and 260) shows under the other.  `HeapDataManager` keeps the map
objects apart from the references to them.  `DataManager` above is the store
in which every identifier has a map object of its own. -/

/-- A value of a Go map type: nil, or the address of a map object. -/
abbrev MapRef := Option Nat

/-- The store as Go holds it: the mapping from identifier to the reference of
its record, the map objects by address, and the address the next `make` gives
out. -/
structure HeapDataManager where
  DataCluster : GoMap MapRef
  objects : Nat → GoMap Value
  next : Nat
  BaseFilePath : String
  madeFileInfos : Bool

/-- The Go assignments through a map reference: the object at `a` gets a new
content, every other object stays. -/
def assignObject (objects : Nat → GoMap Value) (a : Nat) (content : GoMap Value) :
    Nat → GoMap Value :=
  fun x => if x = a then content else objects x

/-- Source `NewDataManager`, with no map object made yet. -/
def NewHeapDataManager (baseFilePath : String) : HeapDataManager :=
  { BaseFilePath := baseFilePath, DataCluster := [], objects := fun _ => [], next := 0,
    madeFileInfos := false }

/-- Modelled from the spec: `(file.MapIO).MergeWith` of section 4.2 on a map
reference: each field of the delta is assigned into the map object; assigning
into the nil map is a runtime panic.  Result: the map objects afterwards. -/
def MapRef.MergeWith (objects : Nat → GoMap Value) (me : MapRef) (m : GoMap Value) :
    Except Panic (Nat → GoMap Value) :=
  match me with
  | some a =>
    Except.ok (assignObject objects a (m.foldl (fun acc e => GoMap.store acc e.1 e.2) (objects a)))
  | none =>
    match m with
    | [] => Except.ok objects
    | _ :: _ => Except.error Panic.assignmentToNilMap

namespace HeapDataManager

/-- A map the caller makes (`make` or a map literal) with the given content.
Result: the state and the reference to the new map. -/
def newMap (me : HeapDataManager) (content : GoMap Value) : HeapDataManager × MapRef :=
  ({ me with objects := assignObject me.objects me.next content, next := me.next + 1 },
    some me.next)

/-- The Go index expression `me.DataCluster[formID]`: the nil map when the
identifier has no entry. -/
def record (me : HeapDataManager) (formID : String) : MapRef :=
  match GoMap.lookup me.DataCluster formID with
  | some mapIo => mapIo
  | none => none

/-- The record a reference stands for: the content of its map object. -/
def deref (me : HeapDataManager) (r : MapRef) : file.MapIO :=
  r.map me.objects

/-- The record a reader finds under `formID`. -/
def content (me : HeapDataManager) (formID : String) : file.MapIO :=
  me.deref (me.record formID)

/-- The entry of `formID` by value: absent, the nil record, or the content of
its map object. -/
def entry (me : HeapDataManager) (formID : String) : Option file.MapIO :=
  (GoMap.lookup me.DataCluster formID).map me.deref

/-- Every map object the store refers to has been made: its address is below
the next one `make` gives out. -/
def WF (me : HeapDataManager) : Prop :=
  ∀ formID a, GoMap.lookup me.DataCluster formID = some (some a) → a < me.next

/-- Source `GetData` (lines 92-99): the reference the store holds. -/
def GetData (me : HeapDataManager) (formID : String) : MapRef × Option Error :=
  if formID ≠ "" then (me.record formID, none) else (none, some Error.ErrInvalid)

/-- Source `GetDataFile` (lines 29-43). -/
def GetDataFile (me : HeapDataManager) (formID name : String) :
    Option file.IO × Option Error :=
  if formID ≠ "" ∧ name ≠ "" then
    match GoMap.lookup me.DataCluster formID with
    | some mapIo =>
      match (me.deref mapIo).GetFileInfo me.BaseFilePath name with
      | some fi => (some fi, none)
      | none => (none, some Error.ErrNotExist)
    | none => (none, some Error.ErrNotExist)
  else
    (none, some Error.ErrInvalid)

/-- Source `PutData` (lines 220-234): with an entry, `MergeWith` assigns into
the map object the entry refers to; without one, a new map object is made,
merged into and entered under `formID`. -/
def PutData (me : HeapDataManager) (formID : String) (dat : GoMap Value) :
    Except Panic (HeapDataManager × Option Error) :=
  if formID ≠ "" then
    match GoMap.lookup me.DataCluster formID with
    | some mapIo =>
      match MapRef.MergeWith me.objects mapIo dat with
      | Except.ok objects => Except.ok ({ me with objects := objects }, none)
      | Except.error p => Except.error p
    | none =>
      match MapRef.MergeWith (assignObject me.objects me.next []) (some me.next) dat with
      | Except.ok objects =>
        Except.ok ({ me with
          objects := objects, next := me.next + 1,
          DataCluster := GoMap.store me.DataCluster formID (some me.next) }, none)
      | Except.error p => Except.error p
  else
    Except.ok (me, some Error.ErrInvalid)

/-- Source `PutDataWithoutMerge` (lines 236-244): the entry of `formID` becomes
the reference the caller passes. -/
def PutDataWithoutMerge (me : HeapDataManager) (formID : String) (dat : MapRef) :
    HeapDataManager × Option Error :=
  if formID ≠ "" then
    ({ me with DataCluster := GoMap.store me.DataCluster formID dat }, none)
  else
    (me, some Error.ErrInvalid)

/-- The head of `PutDataFile` under the write lock (lines 251-256):
`formDataMap` is `me.DataCluster[formID]`, and for a nil map a new map object
is made and entered into the store.  Result: the address of `formDataMap` and
the state. -/
def ensureRecord (me : HeapDataManager) (formID : String) : Nat × HeapDataManager :=
  match me.record formID with
  | some a => (a, me)
  | none =>
    (me.next,
      { me with
        objects := assignObject me.objects me.next [], next := me.next + 1,
        DataCluster := GoMap.store me.DataCluster formID (some me.next) })

/-- Source `PutDataFile` (lines 246-268).  Result: store, disk, bytes written,
error.  The first branch is the source's `else` (the descriptor the field holds
is updated and written), the second its `then` (a new descriptor is written);
either way the descriptor is assigned to field `name` of the map object
`formDataMap` refers to. -/
def PutDataFile (me : HeapDataManager) (fs : Disk) (formID name : String) (f : file.Meta)
    (reader : Reader) (uid : String) : HeapDataManager × Disk × Int × Option Error :=
  let got := me.GetDataFile formID name
  let made := me.ensureRecord formID
  let formDataMap := made.1
  let me1 := made.2
  match os.IsNotExist got.2, got.1 with
  | false, some existing =>
    let w := (existing.Update f.Name f.ContentType).Write fs reader
    ({ me1 with
        objects := assignObject me1.objects formDataMap
          (GoMap.store (me1.objects formDataMap) name (Value.file w.1)) },
      w.2.1, w.2.2.1, w.2.2.2)
  | _, _ =>
    let w := (file.New me.BaseFilePath f uid).Write fs reader
    ({ me1 with
        objects := assignObject me1.objects formDataMap
          (GoMap.store (me1.objects formDataMap) name (Value.file w.1)) },
      w.2.1, w.2.2.1, w.2.2.2)

end HeapDataManager

/-! ## The store with shared records, seen by value -/

/-- The store a reader sees: under each identifier the content of the map
object it holds. -/
def HeapDataManager.view (me : HeapDataManager) : DataManager :=
  { DataCluster := me.DataCluster.map (fun e => (e.1, me.deref e.2)),
    BaseFilePath := me.BaseFilePath, madeFileInfos := me.madeFileInfos }

/-- The map object of `formID` is held by no other identifier. -/
def HeapDataManager.Own (me : HeapDataManager) (formID : String) : Prop :=
  ∀ other a, GoMap.lookup me.DataCluster formID = some (some a) →
    GoMap.lookup me.DataCluster other = some (some a) → other = formID

/-! ## Views of the store used by the statements -/

/-- The store is a Go map of Go maps: no identifier occurs twice, and no field
name occurs twice in a record. -/
def DataManager.WF (me : DataManager) : Prop :=
  GoMap.WF me.DataCluster ∧ ∀ c ∈ me.DataCluster, GoMap.WF (c.2.getD [])

/-- All fields of all records, in the order in which the nested loops of the
exports visit them. -/
def DataManager.allFields (me : DataManager) : GoMap Value :=
  me.DataCluster.flatMap (fun c => c.2.getD [])

/-- The fields of a record whose value is a File Descriptor, with the
descriptor, in iteration order. -/
def file.MapIO.fileFields (me : file.MapIO) : List (String × file.IO) :=
  (me.getD []).filterMap (fun e =>
    match e.2 with
    | Value.file fileInfo => some (e.1, fileInfo)
    | _ => none)

/-- Every (identifier, field) pair of the store whose value is a File
Descriptor, with the descriptor, in iteration order. -/
def DataManager.fileFields (me : DataManager) : List (String × String × file.IO) :=
  me.DataCluster.flatMap (fun c => c.2.fileFields.map (fun e => (c.1, e.1, e.2)))

/-! ## Example states -/

/-- A disk with no file on which every path is writable. -/
def emptyDisk : Disk :=
  { content := fun _ => none, writable := fun _ => true }

/-- A descriptor of an uploaded `a.pdf`. -/
def docA : file.IO :=
  { baseFilePath := "/data", path := "u1", name := "a.pdf",
    contentType := "application/pdf", size := 3 }

/-- A store with one record `s1` that holds a name and an uploaded file. -/
def storeS1 : DataManager :=
  { DataCluster := [("s1", some [("name", Value.str "Alice"), ("doc", Value.file docA)])],
    BaseFilePath := "/data", madeFileInfos := false }

/-- The metadata of an uploaded `b.pdf`. -/
def pdfB : file.Meta :=
  { Name := "b.pdf", ContentType := "application/pdf", Size := 0 }

/-- A stream that delivers two bytes and ends without an error. -/
def bytesB : Reader :=
  { data := [7, 8], fails := false }

/-- A second record, whose field `doc` is a plain text. -/
def storeS1S2 : DataManager :=
  { DataCluster :=
      [("s1", some [("name", Value.str "Alice"), ("doc", Value.file docA)]),
       ("s2", some [("age", Value.num 30)])],
    BaseFilePath := "/data", madeFileInfos := false }

/-- A stream that delivers one byte and then reports an error. -/
def brokenStream : Reader :=
  { data := [7], fails := true }

/-- The store after `PutDataWithoutMerge("s1", nil)` on a new store: the record
of `s1` is the nil map. -/
def storeNilRecord : DataManager :=
  ((NewDataManager "/data").PutDataWithoutMerge "s1" none).1

/-- The store after `m := map[string]interface{}{}`,
`PutDataWithoutMerge("a", m)` and `PutDataWithoutMerge("b", m)` on a new store:
the identifiers `a` and `b` hold the same map object. -/
def sharedStore : HeapDataManager :=
  (((NewHeapDataManager "/data").newMap []).1.PutDataWithoutMerge "a"
    ((NewHeapDataManager "/data").newMap []).2).1.PutDataWithoutMerge "b"
    ((NewHeapDataManager "/data").newMap []).2 |>.1

/-- The store after `PutDataWithoutMerge("a", nil)` on a new store. -/
def heapNilRecord : HeapDataManager :=
  ((NewHeapDataManager "/data").PutDataWithoutMerge "a" none).1

/-- The store `sharedStore` after the caller makes one more map and passes it
to `PutDataWithoutMerge("c", ...)`: `c` holds a map object of its own. -/
def sharedStoreC : HeapDataManager :=
  ((sharedStore.newMap []).1.PutDataWithoutMerge "c" (sharedStore.newMap []).2).1

/-! ## Go maps: lookups after updates -/

namespace GoMap

theorem lookup_store_same {β : Type} (m : GoMap β) (k : String) (v : β) :
    lookup (store m k v) k = some v := by
  induction m with
  | nil => simp [store, lookup]
  | cons e t ih =>
    obtain ⟨k', v'⟩ := e
    by_cases h : k' = k
    · simp [store, lookup, h]
    · simp [store, lookup, h, ih]

theorem lookup_store_other {β : Type} (m : GoMap β) (k k' : String) (v : β) (h : k' ≠ k) :
    lookup (store m k v) k' = lookup m k' := by
  induction m with
  | nil => simp [store, lookup, h.symm]
  | cons e t ih =>
    obtain ⟨k₀, v₀⟩ := e
    by_cases h₀ : k₀ = k
    · subst h₀
      simp [store, lookup, h.symm]
    · by_cases h₁ : k₀ = k'
      · subst h₁
        simp [store, lookup, h₀]
      · simp [store, lookup, h₀, h₁, ih]

theorem lookup_remove_same {β : Type} (m : GoMap β) (k : String) :
    lookup (remove m k) k = none := by
  induction m with
  | nil => simp [remove, lookup]
  | cons e t ih =>
    obtain ⟨k', v'⟩ := e
    by_cases h : k' = k
    · simpa [remove, h] using ih
    · simpa [remove, h, lookup] using ih

theorem lookup_remove_other {β : Type} (m : GoMap β) (k k' : String) (h : k' ≠ k) :
    lookup (remove m k) k' = lookup m k' := by
  induction m with
  | nil => simp [remove, lookup]
  | cons e t ih =>
    obtain ⟨k₀, v₀⟩ := e
    by_cases h₀ : k₀ = k
    · subst h₀
      simpa [remove, lookup, h.symm] using ih
    · by_cases h₁ : k₀ = k'
      · subst h₁
        simp [remove, lookup, h₀]
      · simpa [remove, lookup, h₀, h₁] using ih

end GoMap

/-! ## GetDataFile -/

/-- C1: `GetDataFile` returns the invalid-argument error exactly when `formID`
or `name` is empty; with both non-empty it returns the not-found error when the
store has no record for `formID` or the field does not resolve to a descriptor
(`GetFileInfo` gives nil), and otherwise returns that descriptor with a nil
error. -/
theorem GetDataFile_contract (me : DataManager) (formID name : String) :
    ((me.GetDataFile formID name).2 = some Error.ErrInvalid ↔ formID = "" ∨ name = "") ∧
    (formID ≠ "" → name ≠ "" →
      ((GoMap.lookup me.DataCluster formID = none ∨
          ∃ mapIo, GoMap.lookup me.DataCluster formID = some mapIo ∧
            mapIo.GetFileInfo me.BaseFilePath name = none) →
        me.GetDataFile formID name = (none, some Error.ErrNotExist)) ∧
      (∀ mapIo fi, GoMap.lookup me.DataCluster formID = some mapIo →
          mapIo.GetFileInfo me.BaseFilePath name = some fi →
        me.GetDataFile formID name = (some fi, none))) := by
  refine ⟨?_, ?_⟩
  · unfold DataManager.GetDataFile
    by_cases h : formID ≠ "" ∧ name ≠ ""
    · rw [if_pos h]
      have hne : ¬ (formID = "" ∨ name = "") := by
        rintro (h' | h')
        · exact h.1 h'
        · exact h.2 h'
      cases hl : GoMap.lookup me.DataCluster formID with
      | none => simp [hne]
      | some mapIo =>
        cases hg : file.MapIO.GetFileInfo mapIo me.BaseFilePath name <;> simp [hne, hg]
    · rw [if_neg h]
      have : formID = "" ∨ name = "" := by
        by_contra hc
        exact h ⟨fun h' => hc (Or.inl h'), fun h' => hc (Or.inr h')⟩
      simp [this]
  · intro hf hn
    have h : formID ≠ "" ∧ name ≠ "" := ⟨hf, hn⟩
    refine ⟨?_, ?_⟩
    · rintro (hl | ⟨mapIo, hl, hg⟩)
      · simp [DataManager.GetDataFile, h, hl]
      · simp [DataManager.GetDataFile, h, hl, hg]
    · intro mapIo fi hl hg
      simp [DataManager.GetDataFile, h, hl, hg]

/-- C1, at concrete inputs: the scenario of the specification (a missing record
is not found, an empty identifier is invalid) and a field that holds a
descriptor. -/
theorem GetDataFile_contract_witness :
    storeS1.GetDataFile "missing" "x" = (none, some Error.ErrNotExist) ∧
    (storeS1.GetDataFile "" "x").2 = some Error.ErrInvalid ∧
    storeS1.GetDataFile "s1" "name" = (none, some Error.ErrNotExist) ∧
    storeS1.GetDataFile "s1" "doc" = (some docA, none) :=
  ⟨((GetDataFile_contract storeS1 "missing" "x").2 (by decide) (by decide)).1
      (Or.inl rfl),
    ((GetDataFile_contract storeS1 "" "x").1).2 (Or.inl rfl),
    ((GetDataFile_contract storeS1 "s1" "name").2 (by decide) (by decide)).1
      (Or.inr ⟨some [("name", Value.str "Alice"), ("doc", Value.file docA)], rfl, rfl⟩),
    ((GetDataFile_contract storeS1 "s1" "doc").2 (by decide) (by decide)).2
      (some [("name", Value.str "Alice"), ("doc", Value.file docA)]) docA rfl rfl⟩

/-! ## Go maps: a run of assignments -/

namespace GoMap

theorem lookup_append {β : Type} (m n : GoMap β) (k : String) :
    lookup (m ++ n) k = (lookup m k <|> lookup n k) := by
  induction m with
  | nil => simp [lookup]
  | cons e t ih =>
    obtain ⟨k', v'⟩ := e
    by_cases h : k' = k
    · simp [lookup, h]
    · simpa [lookup, h] using ih

theorem lookup_store {β : Type} (m : GoMap β) (k k' : String) (v : β) :
    lookup (store m k v) k' = (lookup [(k, v)] k' <|> lookup m k') := by
  by_cases h : k' = k
  · subst h
    simp [lookup_store_same, lookup]
  · rw [lookup_store_other m k k' v h]
    have h' : ¬ k = k' := fun e => h e.symm
    simp [lookup, h']

/-- After a run of assignments `acc[e.1] = e.2`, a key holds the value of its
last assignment, or what it held before when it was not assigned. -/
theorem lookup_foldl_store {β : Type} (es : GoMap β) (acc : GoMap β) (k : String) :
    lookup (es.foldl (fun a e => store a e.1 e.2) acc) k
      = (lookup es.reverse k <|> lookup acc k) := by
  induction es generalizing acc with
  | nil => simp [lookup]
  | cons e t ih =>
    rw [List.foldl_cons, ih, List.reverse_cons, lookup_append, lookup_store]
    cases lookup t.reverse k <;> cases lookup [e] k <;> simp

theorem lookup_eq_none_of_not_mem_keys {β : Type} (m : GoMap β) (k : String)
    (h : k ∉ keys m) : lookup m k = none := by
  induction m with
  | nil => simp [lookup]
  | cons e t ih =>
    obtain ⟨k', v'⟩ := e
    simp only [keys, List.map_cons, List.mem_cons, not_or] at h
    have h' : ¬ k' = k := fun e => h.1 e.symm
    simpa [lookup, h'] using ih h.2

theorem lookup_eq_some_iff_mem {β : Type} (m : GoMap β) (h : WF m) (k : String) (v : β) :
    lookup m k = some v ↔ (k, v) ∈ m := by
  induction m with
  | nil => simp [lookup]
  | cons e t ih =>
    obtain ⟨k', v'⟩ := e
    have hnd : k' ∉ keys t ∧ WF t := by
      simpa [WF, keys] using h
    by_cases hk : k' = k
    · subst hk
      constructor
      · intro hl
        simp only [lookup, if_true, Option.some.injEq] at hl
        simp [hl]
      · intro hm
        rcases List.mem_cons.mp hm with he | ht
        · cases he
          simp [lookup]
        · exact absurd (List.mem_map_of_mem Prod.fst ht) hnd.1
    · have hk' : ¬ ((k, v) = (k', v')) := by
        intro e
        exact hk (congrArg Prod.fst e).symm
      simp [lookup, hk, hk', ih hnd.2]

theorem WF_reverse {β : Type} (m : GoMap β) (h : WF m) : WF m.reverse := by
  unfold WF keys at *
  rw [List.map_reverse]
  exact List.nodup_reverse.mpr h

/-- In a map (no key twice) the first and the last entry of a key are the
same. -/
theorem lookup_reverse {β : Type} (m : GoMap β) (h : WF m) (k : String) :
    lookup m.reverse k = lookup m k := by
  cases hl : lookup m k with
  | some v =>
    rw [lookup_eq_some_iff_mem _ (WF_reverse m h)]
    exact List.mem_reverse.mpr ((lookup_eq_some_iff_mem m h k v).mp hl)
  | none =>
    cases hr : lookup m.reverse k with
    | none => rfl
    | some v =>
      have hm : (k, v) ∈ m :=
        List.mem_reverse.mp ((lookup_eq_some_iff_mem _ (WF_reverse m h) k v).mp hr)
      rw [(lookup_eq_some_iff_mem m h k v).mpr hm] at hl
      cases hl

/-- Assigning the entries of a map one by one to the empty map gives the map
back, in the same order. -/
theorem foldl_store_append {β : Type} (es acc : GoMap β) (h : WF (acc ++ es)) :
    es.foldl (fun a e => store a e.1 e.2) acc = acc ++ es := by
  induction es generalizing acc with
  | nil => simp
  | cons e t ih =>
    have hstore : store acc e.1 e.2 = acc ++ [e] := by
      have hk : e.1 ∉ keys acc := by
        have h' := h
        simp only [WF, keys, List.map_append, List.map_cons] at h'
        intro hmem
        exact (List.nodup_append.mp h').2.2 hmem (List.mem_cons_self _ _)
      clear ih h
      induction acc with
      | nil => simp [store]
      | cons a s ihs =>
        simp only [keys, List.map_cons, List.mem_cons, not_or] at hk
        have ha : ¬ a.1 = e.1 := fun c => hk.1 c.symm
        obtain ⟨ak, av⟩ := a
        simp only at ha
        simp [store, ha, ihs hk.2]
    rw [List.foldl_cons, hstore, ih (acc ++ [e]) (by simpa using h)]
    simp

end GoMap

/-! ## Records and the store after a write -/

theorem MergeWith_field (r merged : file.MapIO) (D : GoMap Value) (hD : GoMap.WF D)
    (h : r.MergeWith D = Except.ok merged) (k : String) :
    merged.field k = (GoMap.lookup D k <|> r.field k) := by
  cases r with
  | some m =>
    simp only [file.MapIO.MergeWith, Except.ok.injEq] at h
    subst h
    simp only [file.MapIO.field]
    rw [GoMap.lookup_foldl_store, GoMap.lookup_reverse D hD]
  | none =>
    cases D with
    | nil =>
      simp only [file.MapIO.MergeWith, Except.ok.injEq] at h
      subst h
      simp [file.MapIO.field, GoMap.lookup]
    | cons e t => simp [file.MapIO.MergeWith] at h

theorem record_store_same (me : DataManager) (formID : String) (r : file.MapIO) :
    DataManager.record { me with DataCluster := GoMap.store me.DataCluster formID r } formID
      = r := by
  simp [DataManager.record, GoMap.lookup_store_same]

theorem PutData_ok_record (me me' : DataManager) (formID : String) (D : GoMap Value)
    (hid : formID ≠ "") (hput : me.PutData formID D = Except.ok (me', none)) :
    ∃ merged : file.MapIO,
      me'.DataCluster = GoMap.store me.DataCluster formID merged ∧
      (match GoMap.lookup me.DataCluster formID with
        | some mapIo => mapIo.MergeWith D = Except.ok merged
        | none => file.MapIO.MergeWith (some []) D = Except.ok merged) := by
  unfold DataManager.PutData at hput
  rw [if_pos hid] at hput
  cases hl : GoMap.lookup me.DataCluster formID with
  | some mapIo =>
    rw [hl] at hput
    simp only at hput
    cases hm : file.MapIO.MergeWith mapIo D with
    | error p => rw [hm] at hput; cases hput
    | ok merged =>
      rw [hm] at hput
      simp only [Except.ok.injEq, Prod.mk.injEq, and_true] at hput
      exact ⟨merged, by rw [← hput], hm⟩
  | none =>
    rw [hl] at hput
    simp only at hput
    cases hm : file.MapIO.MergeWith (some []) D with
    | error p => rw [hm] at hput; cases hput
    | ok merged =>
      rw [hm] at hput
      simp only [Except.ok.injEq, Prod.mk.injEq, and_true] at hput
      exact ⟨merged, by rw [← hput], rfl⟩

/-! ## PutData -/

/-- C2: after `PutData(formID, D)` returns nil for a non-empty `formID`,
`GetData(formID)` succeeds and maps every key of `D` to its value in `D`, maps
every other key to what the previous record held (so it has no key that is in
neither), and is exactly `D` when the identifier had no record before. -/
theorem PutData_merges (me me' : DataManager) (formID : String) (D : GoMap Value)
    (hid : formID ≠ "") (hD : GoMap.WF D)
    (hput : me.PutData formID D = Except.ok (me', none)) :
    (me'.GetData formID).2 = none ∧
    (∀ k v, GoMap.lookup D k = some v → (me'.GetData formID).1.field k = some v) ∧
    (∀ k, GoMap.lookup D k = none →
      (me'.GetData formID).1.field k = (me.GetData formID).1.field k) ∧
    (GoMap.lookup me.DataCluster formID = none → (me'.GetData formID).1 = some D) := by
  obtain ⟨merged, hc, hm⟩ := PutData_ok_record me me' formID D hid hput
  have hrec : me'.record formID = merged := by
    simp [DataManager.record, hc, GoMap.lookup_store_same]
  have hget : ∀ s : DataManager, s.GetData formID = (s.record formID, none) := by
    intro s
    simp [DataManager.GetData, hid]
  rw [hget me', hget me, hrec]
  cases hl : GoMap.lookup me.DataCluster formID with
  | some mapIo =>
    rw [hl] at hm
    have hf := MergeWith_field mapIo merged D hD hm
    have hold : me.record formID = mapIo := by simp [DataManager.record, hl]
    refine ⟨rfl, ?_, ?_, ?_⟩
    · intro k v hk
      simp [hf k, hk]
    · intro k hk
      simp [hf k, hk, hold]
    · intro hn
      cases hn
  | none =>
    rw [hl] at hm
    have hf := MergeWith_field (some []) merged D hD hm
    have hold : me.record formID = none := by simp [DataManager.record, hl]
    refine ⟨rfl, ?_, ?_, ?_⟩
    · intro k v hk
      simp [hf k, hk]
    · intro k hk
      rw [hf k, hk, hold]
      simp [file.MapIO.field, GoMap.lookup]
    · intro _
      simp only [file.MapIO.MergeWith, Except.ok.injEq] at hm
      rw [← hm, GoMap.foldl_store_append D [] (by simpa using hD)]
      simp

/-- C2, at the scenario of the specification: after `PutData("s1", {name:
Alice})` the call `PutData("s1", {age: 30})` leaves both fields in the record,
and the first call on the empty store gives exactly its delta. -/
theorem PutData_merges_witness :
    (DataManager.GetData
        { DataCluster := [("s1", some [("name", Value.str "Alice"), ("age", Value.num 30)])],
          BaseFilePath := "/data", madeFileInfos := false } "s1").1.field "age"
      = some (Value.num 30) ∧
    (DataManager.GetData
        { DataCluster := [("s1", some [("name", Value.str "Alice"), ("age", Value.num 30)])],
          BaseFilePath := "/data", madeFileInfos := false } "s1").1.field "name"
      = some (Value.str "Alice") ∧
    (DataManager.GetData
        { DataCluster := [("s1", some [("name", Value.str "Alice")])],
          BaseFilePath := "/data", madeFileInfos := false } "s1").1
      = some [("name", Value.str "Alice")] :=
  ⟨(PutData_merges
      { DataCluster := [("s1", some [("name", Value.str "Alice")])],
        BaseFilePath := "/data", madeFileInfos := false }
      _ "s1" [("age", Value.num 30)] (by decide) (by simp [GoMap.WF, GoMap.keys]) rfl).2.1
      "age" (Value.num 30) rfl,
    ((PutData_merges
      { DataCluster := [("s1", some [("name", Value.str "Alice")])],
        BaseFilePath := "/data", madeFileInfos := false }
      _ "s1" [("age", Value.num 30)] (by decide) (by simp [GoMap.WF, GoMap.keys]) rfl).2.2.1
      "name" rfl).trans rfl,
    (PutData_merges (NewDataManager "/data") _ "s1" [("name", Value.str "Alice")]
      (by decide) (by simp [GoMap.WF, GoMap.keys]) rfl).2.2.2 rfl⟩

/-! ## PutDataWithoutMerge and Clear -/

/-- C3: for a non-empty `formID`, `PutDataWithoutMerge(formID, M)` returns nil,
after it `GetData(formID)` is `M` itself with a nil error, so a field that is no
key of `M` is absent whatever the previous record held, and the entry of every
other identifier is unchanged. -/
theorem PutDataWithoutMerge_replaces (me : DataManager) (formID : String) (M : file.MapIO)
    (hid : formID ≠ "") :
    (me.PutDataWithoutMerge formID M).2 = none ∧
    (me.PutDataWithoutMerge formID M).1.GetData formID = (M, none) ∧
    (∀ k, M.field k = none →
      ((me.PutDataWithoutMerge formID M).1.GetData formID).1.field k = none) ∧
    (∀ other, other ≠ formID →
      GoMap.lookup (me.PutDataWithoutMerge formID M).1.DataCluster other
          = GoMap.lookup me.DataCluster other ∧
      (me.PutDataWithoutMerge formID M).1.GetData other = me.GetData other) := by
  have hget : (me.PutDataWithoutMerge formID M).1.GetData formID = (M, none) := by
    simp [DataManager.PutDataWithoutMerge, DataManager.GetData, hid, DataManager.record,
      GoMap.lookup_store_same]
  refine ⟨by simp [DataManager.PutDataWithoutMerge, hid], hget, ?_, ?_⟩
  · intro k hk
    rw [hget]
    exact hk
  · intro other ho
    have hl : GoMap.lookup (me.PutDataWithoutMerge formID M).1.DataCluster other
        = GoMap.lookup me.DataCluster other := by
      simp [DataManager.PutDataWithoutMerge, hid, GoMap.lookup_store_other _ _ _ _ ho]
    refine ⟨hl, ?_⟩
    simp only [DataManager.GetData, DataManager.record, hl]

/-- C3, at a concrete input: replacing the record of `s1` in a store that holds
a name and a file under `s1`. -/
theorem PutDataWithoutMerge_replaces_witness :
    (storeS1.PutDataWithoutMerge "s1" (some [("age", Value.num 30)])).1.GetData "s1"
      = (some [("age", Value.num 30)], none) :=
  (PutDataWithoutMerge_replaces storeS1 "s1" (some [("age", Value.num 30)]) (by decide)).2.1

/-- C4: for a non-empty identifier `A`, `Clear(A)` returns nil, a following
`GetData(A)` returns the nil record with a nil error, and the entry of every
other identifier is unchanged. -/
theorem Clear_removes (me : DataManager) (A : String) (hA : A ≠ "") :
    (me.Clear A).2 = none ∧
    (me.Clear A).1.GetData A = (none, none) ∧
    (∀ B, B ≠ A →
      GoMap.lookup (me.Clear A).1.DataCluster B = GoMap.lookup me.DataCluster B ∧
      (me.Clear A).1.GetData B = me.GetData B) := by
  refine ⟨by simp [DataManager.Clear, hA], ?_, ?_⟩
  · simp [DataManager.Clear, DataManager.GetData, hA, DataManager.record,
      GoMap.lookup_remove_same]
  · intro B hB
    have hl : GoMap.lookup (me.Clear A).1.DataCluster B = GoMap.lookup me.DataCluster B := by
      simp [DataManager.Clear, hA, GoMap.lookup_remove_other _ _ _ hB]
    refine ⟨hl, ?_⟩
    simp only [DataManager.GetData, DataManager.record, hl]

/-- C4, at a concrete input: clearing the one record of a store. -/
theorem Clear_removes_witness :
    (storeS1.Clear "s1").2 = none ∧ (storeS1.Clear "s1").1.GetData "s1" = (none, none) :=
  ⟨(Clear_removes storeS1 "s1" (by decide)).1, (Clear_removes storeS1 "s1" (by decide)).2.1⟩

/-! ## Descriptors: what a write keeps and what it sets -/

theorem Write_keeps (d : file.IO) (fs : Disk) (reader : Reader) :
    (d.Write fs reader).1.baseFilePath = d.baseFilePath ∧
    (d.Write fs reader).1.path = d.path ∧
    (d.Write fs reader).1.name = d.name ∧
    (d.Write fs reader).1.contentType = d.contentType ∧
    (d.Write fs reader).1.Path = d.Path := by
  unfold file.IO.Write
  by_cases h : fs.writable d.Path = true
  · rw [if_pos h]
    simp [ file.IO.Path]
  · rw [if_neg h]
    simp

theorem Write_ok (d : file.IO) (fs : Disk) (reader : Reader)
    (h : (d.Write fs reader).2.2.2 = none) :
    (d.Write fs reader).1.size = (d.Write fs reader).2.2.1 ∧
    (d.Write fs reader).2.2.1 = (reader.data.length : Int) ∧
    (d.Write fs reader).2.1.content d.Path = some reader.data := by
  unfold file.IO.Write at h ⊢
  by_cases hw : fs.writable d.Path = true
  · rw [if_pos hw]
    simp
  · rw [if_neg hw] at h
    simp at h

/-! ## PutDataFile: the two branches -/

theorem ensureRecord_field (me : DataManager) (formID k : String) :
    GoMap.lookup (me.ensureRecord formID).1 k = (me.record formID).field k := by
  unfold DataManager.ensureRecord
  cases me.record formID <;> simp [file.MapIO.field, GoMap.lookup]

theorem ensureRecord_other (me : DataManager) (formID other : String) (h : other ≠ formID) :
    GoMap.lookup (me.ensureRecord formID).2 other = GoMap.lookup me.DataCluster other := by
  unfold DataManager.ensureRecord
  cases me.record formID <;> simp [GoMap.lookup_store_other _ _ _ _ h]

/-- When `GetDataFile` gives no descriptor, `PutDataFile` takes the branch that
creates one. -/
theorem PutDataFile_create (me : DataManager) (fs : Disk) (formID name : String)
    (f : file.Meta) (reader : Reader) (uid : String)
    (h : (me.GetDataFile formID name).1 = none) :
    me.PutDataFile fs formID name f reader uid =
      ({ me with
          DataCluster :=
            GoMap.store (me.ensureRecord formID).2 formID
              (some (GoMap.store (me.ensureRecord formID).1 name
                (Value.file ((file.New me.BaseFilePath f uid).Write fs reader).1))) },
        ((file.New me.BaseFilePath f uid).Write fs reader).2.1,
        ((file.New me.BaseFilePath f uid).Write fs reader).2.2.1,
        ((file.New me.BaseFilePath f uid).Write fs reader).2.2.2) := by
  unfold DataManager.PutDataFile
  simp only [h]
  cases os.IsNotExist (me.GetDataFile formID name).2 <;> rfl

/-- When `GetDataFile` gives a descriptor, `PutDataFile` takes the branch that
updates and overwrites it. -/
theorem PutDataFile_update (me : DataManager) (fs : Disk) (formID name : String)
    (f : file.Meta) (reader : Reader) (uid : String) (d : file.IO)
    (h : me.GetDataFile formID name = (some d, none)) :
    me.PutDataFile fs formID name f reader uid =
      ({ me with
          DataCluster :=
            GoMap.store (me.ensureRecord formID).2 formID
              (some (GoMap.store (me.ensureRecord formID).1 name
                (Value.file ((d.Update f.Name f.ContentType).Write fs reader).1))) },
        ((d.Update f.Name f.ContentType).Write fs reader).2.1,
        ((d.Update f.Name f.ContentType).Write fs reader).2.2.1,
        ((d.Update f.Name f.ContentType).Write fs reader).2.2.2) := by
  unfold DataManager.PutDataFile
  simp only [h, os.IsNotExist]

/-- After either branch the field holds the descriptor that was written. -/
theorem GetDataFile_after_store (me : DataManager) (cluster : GoMap file.MapIO)
    (formDataMap : GoMap Value) (formID name : String) (d : file.IO)
    (hid : formID ≠ "") (hname : name ≠ "") :
    DataManager.GetDataFile
        { me with
          DataCluster :=
            GoMap.store cluster formID (some (GoMap.store formDataMap name (Value.file d))) }
        formID name = (some d, none) := by
  simp [DataManager.GetDataFile, hid, hname, GoMap.lookup_store_same, file.MapIO.GetFileInfo]

/-! ## PutDataFile -/

/-- C5: when `GetDataFile(formID, name)` already returns a descriptor `d`, then
after `PutDataFile(formID, name, meta, reader)` succeeds `GetDataFile` returns a
descriptor with the path of `d`, with the name and content type of `meta` and
with the number of bytes written as its size, and the disk holds the bytes of
the stream at that path. -/
theorem PutDataFile_overwrites (me : DataManager) (fs : Disk) (formID name : String)
    (f : file.Meta) (reader : Reader) (uid : String) (d : file.IO)
    (hid : formID ≠ "") (hname : name ≠ "")
    (hget : me.GetDataFile formID name = (some d, none))
    (hok : (me.PutDataFile fs formID name f reader uid).2.2.2 = none) :
    ∃ d' : file.IO,
      (me.PutDataFile fs formID name f reader uid).1.GetDataFile formID name = (some d', none) ∧
      d'.Path = d.Path ∧ d'.name = f.Name ∧ d'.contentType = f.ContentType ∧
      d'.size = (me.PutDataFile fs formID name f reader uid).2.2.1 ∧
      (me.PutDataFile fs formID name f reader uid).2.2.1 = (reader.data.length : Int) ∧
      (me.PutDataFile fs formID name f reader uid).2.1.content d.Path = some reader.data := by
  rw [PutDataFile_update me fs formID name f reader uid d hget] at hok ⊢
  have hk := Write_keeps (d.Update f.Name f.ContentType) fs reader
  have ho := Write_ok (d.Update f.Name f.ContentType) fs reader hok
  have hp : (d.Update f.Name f.ContentType).Path = d.Path := rfl
  refine ⟨((d.Update f.Name f.ContentType).Write fs reader).1,
    GetDataFile_after_store me _ _ formID name _ hid hname, ?_, ?_, ?_, ho.1, ho.2.1, ?_⟩
  · rw [hk.2.2.2.2, hp]
  · rw [hk.2.2.1]
    rfl
  · rw [hk.2.2.2.1]
    rfl
  · rw [← hp]
    exact ho.2.2

/-- C5, at the scenario of the specification: `doc` of `s1` holds `a.pdf`, and
`b.pdf` is uploaded to the same field. -/
theorem PutDataFile_overwrites_witness :
    ∃ d' : file.IO,
      (storeS1.PutDataFile emptyDisk "s1" "doc" pdfB bytesB "u2").1.GetDataFile "s1" "doc"
        = (some d', none) ∧
      d'.Path = docA.Path ∧ d'.name = "b.pdf" ∧ d'.contentType = "application/pdf" ∧
      d'.size = (storeS1.PutDataFile emptyDisk "s1" "doc" pdfB bytesB "u2").2.2.1 ∧
      (storeS1.PutDataFile emptyDisk "s1" "doc" pdfB bytesB "u2").2.2.1 = 2 ∧
      (storeS1.PutDataFile emptyDisk "s1" "doc" pdfB bytesB "u2").2.1.content docA.Path
        = some [7, 8] :=
  PutDataFile_overwrites storeS1 emptyDisk "s1" "doc" pdfB bytesB "u2" docA
    (by decide) (by decide) rfl rfl

/-- The create branch on the store in which every identifier has a map object
of its own: when `GetDataFile(formID, name)` returns not-found for non-empty keys,
then after `PutDataFile(formID, name, meta, reader)` succeeds the store has a
record for `formID`, `GetDataFile` returns the newly created descriptor (base
directory of the store, the generated path) with the name and content type of
`meta`, every other field of the record is unchanged, and the entry of every
other identifier is unchanged. -/
theorem PutDataFile_creates (me : DataManager) (fs : Disk) (formID name : String)
    (f : file.Meta) (reader : Reader) (uid : String)
    (hid : formID ≠ "") (hname : name ≠ "")
    (hget : me.GetDataFile formID name = (none, some Error.ErrNotExist))
    (_hok : (me.PutDataFile fs formID name f reader uid).2.2.2 = none) :
    (∃ r, GoMap.lookup (me.PutDataFile fs formID name f reader uid).1.DataCluster formID
        = some (some r)) ∧
    (∃ d' : file.IO,
      (me.PutDataFile fs formID name f reader uid).1.GetDataFile formID name = (some d', none) ∧
      d'.name = f.Name ∧ d'.contentType = f.ContentType ∧
      d'.baseFilePath = me.BaseFilePath ∧ d'.path = uid) ∧
    (∀ k, k ≠ name →
      ((me.PutDataFile fs formID name f reader uid).1.record formID).field k
        = (me.record formID).field k) ∧
    (∀ other, other ≠ formID →
      GoMap.lookup (me.PutDataFile fs formID name f reader uid).1.DataCluster other
        = GoMap.lookup me.DataCluster other) := by
  have hnone : (me.GetDataFile formID name).1 = none := by rw [hget]
  rw [PutDataFile_create me fs formID name f reader uid hnone]
  have hk := Write_keeps (file.New me.BaseFilePath f uid) fs reader
  refine ⟨⟨_, GoMap.lookup_store_same _ _ _⟩, ?_, ?_, ?_⟩
  · refine ⟨((file.New me.BaseFilePath f uid).Write fs reader).1,
      GetDataFile_after_store me _ _ formID name _ hid hname, ?_, ?_, ?_, ?_⟩
    · rw [hk.2.2.1]
      rfl
    · rw [hk.2.2.2.1]
      rfl
    · rw [hk.1]
      rfl
    · rw [hk.2.1]
      rfl
  · intro k hkn
    simp only [DataManager.record, GoMap.lookup_store_same, file.MapIO.field]
    rw [GoMap.lookup_store_other _ _ _ _ hkn, ensureRecord_field]
    rfl
  · intro other ho
    simp only []
    rw [GoMap.lookup_store_other _ _ _ _ ho, ensureRecord_other me formID other ho]

/-- The create branch at a concrete input: the first upload to field `cv` of the record `s1`,
which holds a name and another file. -/
theorem PutDataFile_creates_witness :
    (∃ d' : file.IO,
      (storeS1.PutDataFile emptyDisk "s1" "cv" pdfB bytesB "u2").1.GetDataFile "s1" "cv"
        = (some d', none) ∧
      d'.name = "b.pdf" ∧ d'.contentType = "application/pdf" ∧
      d'.baseFilePath = "/data" ∧ d'.path = "u2") ∧
    ((storeS1.PutDataFile emptyDisk "s1" "cv" pdfB bytesB "u2").1.record "s1").field "doc"
      = some (Value.file docA) :=
  ⟨(PutDataFile_creates storeS1 emptyDisk "s1" "cv" pdfB bytesB "u2"
      (by decide) (by decide) rfl rfl).2.1,
    (PutDataFile_creates storeS1 emptyDisk "s1" "cv" pdfB bytesB "u2"
      (by decide) (by decide) rfl rfl).2.2.1 "doc" (by decide)⟩

/-- C7 (the code departs from the claim): `PutDataFile` with an empty `formID`
or an empty `name` is not rejected.  `GetDataFile` reports the invalid argument,
`PutDataFile` takes that for a missing descriptor and creates one: the error it
returns is the error of the write, never the invalid-argument error, the store
afterwards has a record under `formID` whose field `name` holds a descriptor,
and on a writable path the bytes of the stream are on the disk. -/
theorem PutDataFile_empty_key_not_rejected (me : DataManager) (fs : Disk)
    (formID name : String) (f : file.Meta) (reader : Reader) (uid : String)
    (h : formID = "" ∨ name = "") :
    (me.PutDataFile fs formID name f reader uid).2.2.2 ≠ some Error.ErrInvalid ∧
    (∃ r d, GoMap.lookup (me.PutDataFile fs formID name f reader uid).1.DataCluster formID
        = some (some r) ∧ GoMap.lookup r name = some (Value.file d)) ∧
    (fs.writable (file.New me.BaseFilePath f uid).Path = true →
      (me.PutDataFile fs formID name f reader uid).2.1.content
        (file.New me.BaseFilePath f uid).Path = some reader.data) := by
  have hnone : (me.GetDataFile formID name).1 = none := by
    have hn : ¬ (formID ≠ "" ∧ name ≠ "") := by
      rintro ⟨h1, h2⟩
      rcases h with h | h
      · exact h1 h
      · exact h2 h
    simp [DataManager.GetDataFile, hn]
  rw [PutDataFile_create me fs formID name f reader uid hnone]
  refine ⟨?_, ⟨_, _, GoMap.lookup_store_same _ _ _, GoMap.lookup_store_same _ _ _⟩, ?_⟩
  · unfold file.IO.Write
    by_cases hw : fs.writable (file.New me.BaseFilePath f uid).Path = true
    · rw [if_pos hw]
      by_cases hf : reader.fails = true <;> simp [hf]
    · rw [if_neg hw]
      simp
  · intro hw
    unfold file.IO.Write
    rw [if_pos hw]
    simp

/-- C7, at the failing inputs: on the empty store, an upload under the empty
identifier and an upload under the empty field name both return a nil error
with two bytes written, and leave a record under that identifier and a file on
the disk. -/
theorem PutDataFile_empty_key_not_rejected_witness :
    ((NewDataManager "/data").PutDataFile emptyDisk "" "doc" pdfB bytesB "u2").2.2.2 = none ∧
    ((NewDataManager "/data").PutDataFile emptyDisk "" "doc" pdfB bytesB "u2").2.2.1 = 2 ∧
    ((NewDataManager "/data").PutDataFile emptyDisk "" "doc" pdfB bytesB "u2").2.1.content
      "/data/u2" = some [7, 8] ∧
    (∃ r d,
      GoMap.lookup
        ((NewDataManager "/data").PutDataFile emptyDisk "" "doc" pdfB bytesB "u2").1.DataCluster ""
        = some (some r) ∧ GoMap.lookup r "doc" = some (Value.file d)) ∧
    ((NewDataManager "/data").PutDataFile emptyDisk "s1" "" pdfB bytesB "u2").2.2.2 = none ∧
    (∃ r d,
      GoMap.lookup
        ((NewDataManager "/data").PutDataFile emptyDisk "s1" "" pdfB bytesB "u2").1.DataCluster "s1"
        = some (some r) ∧ GoMap.lookup r "" = some (Value.file d)) :=
  ⟨rfl, rfl, rfl,
    (PutDataFile_empty_key_not_rejected (NewDataManager "/data") emptyDisk "" "doc" pdfB bytesB
      "u2" (Or.inl rfl)).2.1,
    rfl,
    (PutDataFile_empty_key_not_rejected (NewDataManager "/data") emptyDisk "s1" "" pdfB bytesB
      "u2" (Or.inr rfl)).2.1⟩

/-! ## The empty identifier -/

/-- C8: each of `GetData`, `Clear`, `GetDataByPath`, `GetDataFiles`, `PutData`
and `PutDataWithoutMerge` returns the invalid-argument error exactly when
`formID` is empty, and then the store is unchanged.  `GetData`, `GetDataByPath`
and `GetDataFiles` assign to no field of the store, so they return no store. -/
theorem empty_formID_is_invalid (me : DataManager) (formID : String) :
    ((me.GetData formID).2 = some Error.ErrInvalid ↔ formID = "") ∧
    ((me.Clear formID).2 = some Error.ErrInvalid ↔ formID = "") ∧
    (∀ dataPath, (me.GetDataByPath formID dataPath).2 = some Error.ErrInvalid ↔ formID = "") ∧
    (∀ baseUri, (me.GetDataFiles formID baseUri).2 = some Error.ErrInvalid ↔ formID = "") ∧
    (∀ dat, (∃ me', me.PutData formID dat = Except.ok (me', some Error.ErrInvalid))
      ↔ formID = "") ∧
    (∀ dat, (me.PutDataWithoutMerge formID dat).2 = some Error.ErrInvalid ↔ formID = "") ∧
    ((me.Clear formID).2 = some Error.ErrInvalid → (me.Clear formID).1 = me) ∧
    (∀ dat me', me.PutData formID dat = Except.ok (me', some Error.ErrInvalid) → me' = me) ∧
    (∀ dat, (me.PutDataWithoutMerge formID dat).2 = some Error.ErrInvalid →
      (me.PutDataWithoutMerge formID dat).1 = me) := by
  have hput : ∀ dat me' e, formID ≠ "" → me.PutData formID dat = Except.ok (me', e) →
      e = none := by
    intro dat me' e hid hp
    unfold DataManager.PutData at hp
    rw [if_pos hid] at hp
    cases hl : GoMap.lookup me.DataCluster formID with
    | some mapIo =>
      rw [hl] at hp
      cases hm : file.MapIO.MergeWith mapIo dat with
      | error p => simp [hm] at hp
      | ok merged =>
        simp only [hm, Except.ok.injEq, Prod.mk.injEq] at hp
        exact hp.2.symm
    | none =>
      rw [hl] at hp
      cases hm : file.MapIO.MergeWith (some []) dat with
      | error p => simp [hm] at hp
      | ok merged =>
        simp only [hm, Except.ok.injEq, Prod.mk.injEq] at hp
        exact hp.2.symm
  by_cases hid : formID = ""
  · subst hid
    simp [DataManager.GetData, DataManager.Clear, DataManager.GetDataByPath,
      DataManager.GetDataFiles, DataManager.PutData, DataManager.PutDataWithoutMerge]
  · refine ⟨?_, ?_, ?_, ?_, ?_, ?_, ?_, ?_, ?_⟩
    · simp [DataManager.GetData, hid]
    · simp [DataManager.Clear, hid]
    · intro dataPath
      unfold DataManager.GetDataByPath
      rw [if_pos hid]
      cases GoMap.lookup me.DataCluster formID <;> simp [hid]
    · intro baseUri
      unfold DataManager.GetDataFiles
      rw [if_pos hid]
      cases GoMap.lookup me.DataCluster formID <;> simp [hid]
    · intro dat
      constructor
      · rintro ⟨me', hp⟩
        have := hput dat me' _ hid hp
        cases this
      · intro h
        exact absurd h hid
    · simp [DataManager.PutDataWithoutMerge, hid]
    · simp [DataManager.Clear, hid]
    · intro dat me' hp
      have := hput dat me' _ hid hp
      cases this
    · simp [DataManager.PutDataWithoutMerge, hid]

/-! ## Go maps: keys and values -/

namespace GoMap

theorem lookup_eq_none_iff {β : Type} (m : GoMap β) (k : String) :
    lookup m k = none ↔ k ∉ keys m := by
  constructor
  · intro h hk
    induction m with
    | nil => simp [keys] at hk
    | cons e t ih =>
      obtain ⟨k', v'⟩ := e
      by_cases hk' : k' = k
      · simp [lookup, hk'] at h
      · simp only [lookup, if_neg hk'] at h
        simp only [keys, List.map_cons, List.mem_cons] at hk
        rcases hk with hk | hk
        · exact hk' hk.symm
        · exact ih h hk
  · exact lookup_eq_none_of_not_mem_keys m k

theorem keys_map_val {β γ : Type} (m : GoMap β) (g : β → γ) :
    keys (m.map (fun e => (e.1, g e.2))) = keys m := by
  simp [keys, List.map_map, Function.comp_def]

theorem lookup_map_val {β γ : Type} (m : GoMap β) (g : β → γ) (k : String) :
    lookup (m.map (fun e => (e.1, g e.2))) k = (lookup m k).map g := by
  induction m with
  | nil => simp [lookup]
  | cons e t ih =>
    obtain ⟨k', v'⟩ := e
    by_cases h : k' = k
    · simp [lookup, h]
    · simpa [lookup, h] using ih

theorem lookup_reverse_eq_none {β : Type} (m : GoMap β) (k : String) (h : lookup m k = none) :
    lookup m.reverse k = none := by
  rw [lookup_eq_none_iff] at h ⊢
  simpa [keys] using h

/-- A fold over the records of a fold over their fields is one fold over all
fields. -/
theorem foldl_foldl_eq_foldl_flatMap {α β γ : Type} (f : γ → β → γ) (g : α → List β)
    (cs : List α) (acc : γ) :
    cs.foldl (fun a c => (g c).foldl f a) acc = (cs.flatMap g).foldl f acc := by
  induction cs generalizing acc with
  | nil => rfl
  | cons c t ih => rw [List.foldl_cons, ih, List.flatMap_cons, List.foldl_append]

end GoMap

theorem field_eq_lookup_getD (r : file.MapIO) (k : String) :
    r.field k = GoMap.lookup (r.getD []) k := by
  cases r <;> simp [file.MapIO.field, GoMap.lookup]

/-! ## GetAllData -/

theorem allDataStep_eq (baseFilePath : String) (dat : GoMap Value) (e : String × Value) :
    DataManager.allDataStep baseFilePath dat e
      = GoMap.store dat e.1 (file.rehydrate baseFilePath e.2) := by
  obtain ⟨k, v⟩ := e
  cases v with
  | map m =>
    by_cases h : file.IsFileInfo m = true <;>
      simp [DataManager.allDataStep, file.rehydrate, h]
  | _ => simp [DataManager.allDataStep, file.rehydrate]

/-- The mapping of `GetAllData` holds, for a field name, the rehydrated value of
the field of that name that the loops visit last. -/
theorem GetAllData_lookup (me : DataManager) (h : me.DataCluster ≠ []) :
    ∃ dat, me.GetAllData = (some dat, none) ∧
      ∀ k, GoMap.lookup dat k
        = (GoMap.lookup me.allFields.reverse k).map (file.rehydrate me.BaseFilePath) := by
  have hlen : me.DataCluster.length > 0 := List.length_pos.mpr h
  refine ⟨_, by rw [DataManager.GetAllData, if_pos hlen], ?_⟩
  intro k
  rw [GoMap.foldl_foldl_eq_foldl_flatMap (DataManager.allDataStep me.BaseFilePath)
    (fun c => c.2.getD []) me.DataCluster []]
  have hstep : DataManager.allDataStep me.BaseFilePath
      = fun a e => GoMap.store a e.1 (file.rehydrate me.BaseFilePath e.2) := by
    funext a e
    exact allDataStep_eq _ a e
  rw [hstep]
  have hmap : ∀ (es acc : GoMap Value),
      es.foldl (fun a e => GoMap.store a e.1 (file.rehydrate me.BaseFilePath e.2)) acc
        = (es.map (fun e => (e.1, file.rehydrate me.BaseFilePath e.2))).foldl
            (fun a e => GoMap.store a e.1 e.2) acc := by
    intro es
    induction es with
    | nil => intro acc; rfl
    | cons e t ih => intro acc; simp [List.foldl_cons, ih]
  rw [hmap, GoMap.lookup_foldl_store, ← List.map_reverse, GoMap.lookup_map_val]
  simp [DataManager.allFields, GoMap.lookup]

/-- C9 (the code departs from the claim and from its own doc comment): in the
store whose record `s1` holds the
descriptor of `a.pdf` under `doc`, the mapping of `GetAllData` has the File
Descriptor object itself under `doc`, not its display map, while the sibling
`GetAllDataFilePathNameOnly` does enter the map made by `ToMap`. -/
theorem GetAllData_returns_descriptor_object :
    (storeS1.record "s1").field "doc" = some (Value.file docA) ∧
    storeS1.GetAllData = (some [("name", Value.str "Alice"), ("doc", Value.file docA)], none) ∧
    ¬ (∀ dat, storeS1.GetAllData.1 = some dat →
        ∀ k fileInfo, GoMap.lookup dat k ≠ some (Value.file fileInfo)) ∧
    ¬ (∀ dat, storeS1.GetAllData.1 = some dat →
        GoMap.lookup dat "doc" = some (Value.map (docA.ToMap false))) ∧
    storeS1.GetAllDataFilePathNameOnly.1
      = some [("name", Value.str "Alice"), ("doc", Value.map (docA.ToMap true))] := by
  refine ⟨rfl, rfl, ?_, ?_, rfl⟩
  · intro h
    exact h _ rfl "doc" docA rfl
  · intro h
    have h' := h _ rfl
    simp [GoMap.lookup] at h'

/-- The same in general: a field whose stored value is a File Descriptor appears in the
mapping of `GetAllData` as that File Descriptor object itself, never as its
display map, whenever no record visited later has a field of the same name. -/
theorem GetAllData_keeps_descriptor (me : DataManager) (pre post : GoMap file.MapIO)
    (formID name : String) (r : GoMap Value) (fileInfo : file.IO)
    (hsplit : me.DataCluster = pre ++ (formID, some r) :: post)
    (hr : GoMap.WF r)
    (hfile : GoMap.lookup r name = some (Value.file fileInfo))
    (hlater : ∀ c ∈ post, c.2.field name = none) :
    ∃ dat, me.GetAllData = (some dat, none) ∧
      GoMap.lookup dat name = some (Value.file fileInfo) ∧
      GoMap.lookup dat name ≠ some (Value.map (fileInfo.ToMap false)) := by
  have hne : me.DataCluster ≠ [] := by
    rw [hsplit]
    simp
  obtain ⟨dat, hdat, hlook⟩ := GetAllData_lookup me hne
  have hpost : GoMap.lookup (post.flatMap (fun c => c.2.getD [])) name = none := by
    rw [GoMap.lookup_eq_none_iff]
    intro hk
    simp only [GoMap.keys, List.mem_map, List.mem_flatMap] at hk
    obtain ⟨e, ⟨c, hc, he⟩, hname⟩ := hk
    have hnone := hlater c hc
    rw [field_eq_lookup_getD, GoMap.lookup_eq_none_iff] at hnone
    exact hnone (by
      simp only [GoMap.keys, List.mem_map]
      exact ⟨e, he, hname⟩)
  have hval : GoMap.lookup dat name = some (Value.file fileInfo) := by
    rw [hlook name, DataManager.allFields, hsplit, List.flatMap_append, List.flatMap_cons,
      List.reverse_append, List.reverse_append, GoMap.lookup_append, GoMap.lookup_append,
      GoMap.lookup_reverse_eq_none _ _ hpost]
    simp only [Option.getD_some]
    rw [GoMap.lookup_reverse r hr, hfile]
    simp [file.rehydrate]
  refine ⟨dat, hdat, hval, ?_⟩
  rw [hval]
  simp

/-- The same with two records: `doc` of `s1` holds a descriptor and the
record `s2`, visited later, has no field `doc`. -/
theorem GetAllData_keeps_descriptor_witness :
    ∃ dat, storeS1S2.GetAllData = (some dat, none) ∧
      GoMap.lookup dat "doc" = some (Value.file docA) ∧
      GoMap.lookup dat "doc" ≠ some (Value.map (docA.ToMap false)) :=
  GetAllData_keeps_descriptor storeS1S2 [] [("s2", some [("age", Value.num 30)])] "s1" "doc"
    [("name", Value.str "Alice"), ("doc", Value.file docA)] docA rfl
    (by simp [GoMap.WF, GoMap.keys]) rfl
    (by
      intro c hc
      simp only [List.mem_singleton] at hc
      subst hc
      rfl)

/-! ## GetAllDataFilePathNameOnly -/

theorem pathNameOnly_fields (es : GoMap Value) (acc : GoMap Value × List String) :
    (es.foldl DataManager.pathNameOnlyStep acc).2
      = acc.2 ++ (file.MapIO.fileFields (some es)).map (fun e => e.2.Path) := by
  induction es generalizing acc with
  | nil => simp [file.MapIO.fileFields]
  | cons e t ih =>
    obtain ⟨k, v⟩ := e
    rw [List.foldl_cons, ih]
    cases v <;> simp [DataManager.pathNameOnlyStep, file.MapIO.fileFields]

theorem pathNameOnly_records (cs : GoMap file.MapIO) (acc : GoMap Value × List String) :
    (cs.foldl (fun a c => (c.2.getD []).foldl DataManager.pathNameOnlyStep a) acc).2
      = acc.2 ++ (cs.flatMap (fun c => c.2.fileFields.map (fun e => (c.1, e.1, e.2)))).map
          (fun t => t.2.2.Path) := by
  induction cs generalizing acc with
  | nil => simp
  | cons c t ih =>
    rw [List.foldl_cons, ih, pathNameOnly_fields, List.flatMap_cons, List.map_append]
    have hc : file.MapIO.fileFields (some (c.2.getD [])) = c.2.fileFields := by
      cases c.2 <;> rfl
    rw [hc]
    simp [List.map_map, Function.comp_def]

theorem mem_fileFields (r : file.MapIO) (name : String) (fileInfo : file.IO) :
    (name, fileInfo) ∈ r.fileFields ↔ (name, Value.file fileInfo) ∈ r.getD [] := by
  unfold file.MapIO.fileFields
  rw [List.mem_filterMap]
  constructor
  · rintro ⟨⟨k, v⟩, hmem, hv⟩
    cases v <;> simp at hv
    obtain ⟨hk, hf⟩ := hv
    subst hk
    subst hf
    exact hmem
  · intro hmem
    exact ⟨_, hmem, rfl⟩

theorem fileFields_keys_sublist (es : GoMap Value) :
    ((file.MapIO.fileFields (some es)).map Prod.fst).Sublist (GoMap.keys es) := by
  induction es with
  | nil => simp [file.MapIO.fileFields, GoMap.keys]
  | cons e t ih =>
    obtain ⟨k, v⟩ := e
    have ht : (List.map Prod.fst (List.filterMap (fun e : String × Value =>
        match e.2 with
        | Value.file fileInfo => some (e.1, fileInfo)
        | _ => none) t)).Sublist (List.map Prod.fst t) := by
      simpa [file.MapIO.fileFields, GoMap.keys] using ih
    cases v
    case file f =>
      simpa [file.MapIO.fileFields, GoMap.keys] using ht.cons₂ k
    all_goals
      simpa [file.MapIO.fileFields, GoMap.keys] using ht.cons k

/-- C10: the files list of `GetAllDataFilePathNameOnly` is the list of the paths
of the descriptors of `fileFields`, which has one entry for each (identifier,
field) pair whose stored value is a File Descriptor and no other entry; so the
list has exactly one path per such pair and none for any other field. -/
theorem GetAllDataFilePathNameOnly_files (me : DataManager) (hwf : me.WF) :
    me.GetAllDataFilePathNameOnly.2 = me.fileFields.map (fun t => t.2.2.Path) ∧
    (∀ formID name fileInfo,
      (formID, name, fileInfo) ∈ me.fileFields
        ↔ (me.record formID).field name = some (Value.file fileInfo)) ∧
    (me.fileFields.map (fun t => (t.1, t.2.1))).Nodup := by
  refine ⟨?_, ?_, ?_⟩
  · unfold DataManager.GetAllDataFilePathNameOnly DataManager.fileFields
    by_cases hlen : me.DataCluster.length > 0
    · rw [if_pos hlen]
      simp only []
      rw [pathNameOnly_records]
      simp
    · rw [if_neg hlen]
      have : me.DataCluster = [] := by
        cases h : me.DataCluster with
        | nil => rfl
        | cons c t => simp [h] at hlen
      simp [this]
  · intro formID name fileInfo
    unfold DataManager.fileFields
    rw [List.mem_flatMap]
    constructor
    · rintro ⟨⟨id', m⟩, hc, hmem⟩
      rw [List.mem_map] at hmem
      obtain ⟨⟨n', f'⟩, he, heq⟩ := hmem
      simp only [Prod.mk.injEq] at heq
      obtain ⟨h1, h2, h3⟩ := heq
      subst h1
      subst h2
      subst h3
      have hl : GoMap.lookup me.DataCluster id' = some m :=
        (GoMap.lookup_eq_some_iff_mem _ hwf.1 id' m).mpr hc
      have hrec : me.record id' = m := by simp [DataManager.record, hl]
      rw [hrec, field_eq_lookup_getD,
        GoMap.lookup_eq_some_iff_mem _ (hwf.2 _ hc)]
      exact (mem_fileFields m n' f').mp he
    · intro hfield
      cases hl : GoMap.lookup me.DataCluster formID with
      | none =>
        have hrec : me.record formID = none := by simp [DataManager.record, hl]
        rw [hrec] at hfield
        simp [file.MapIO.field] at hfield
      | some m =>
        have hc : (formID, m) ∈ me.DataCluster :=
          (GoMap.lookup_eq_some_iff_mem _ hwf.1 formID m).mp hl
        have hrec : me.record formID = m := by simp [DataManager.record, hl]
        rw [hrec, field_eq_lookup_getD,
          GoMap.lookup_eq_some_iff_mem _ (hwf.2 _ hc)] at hfield
        refine ⟨(formID, m), hc, ?_⟩
        rw [List.mem_map]
        exact ⟨(name, fileInfo), (mem_fileFields m name fileInfo).mpr hfield, rfl⟩
  · unfold DataManager.fileFields
    rw [List.map_flatMap, List.nodup_flatMap]
    constructor
    · rintro ⟨id', m⟩ hc
      simp only [List.map_map, Function.comp_def]
      have hnd : (m.fileFields.map Prod.fst).Nodup := by
        have hsub := fileFields_keys_sublist (m.getD [])
        have hm : file.MapIO.fileFields (some (m.getD [])) = m.fileFields := by
          cases m <;> rfl
        rw [hm] at hsub
        exact List.Nodup.sublist hsub (hwf.2 _ hc)
      have hinj : Function.Injective (fun n : String => (id', n)) := by
        intro a b hab
        simpa using hab
      have := List.Nodup.map hinj hnd
      simpa [List.map_map, Function.comp_def] using this
    · have hp : List.Pairwise (fun a b : String × file.MapIO => a.1 ≠ b.1) me.DataCluster := by
        have := hwf.1
        unfold GoMap.WF GoMap.keys List.Nodup at this
        exact List.pairwise_map.mp this
      refine List.Pairwise.imp ?_ hp
      intro a b hab
      simp only [Function.onFun, List.map_map, Function.comp_def]
      intro x hx hy
      rw [List.mem_map] at hx hy
      obtain ⟨_, _, hx⟩ := hx
      obtain ⟨_, _, hy⟩ := hy
      rw [← hy] at hx
      exact hab (Prod.mk.inj hx).1

/-- C10, at a concrete input: two records, one descriptor: one path. -/
theorem GetAllDataFilePathNameOnly_files_witness :
    storeS1S2.GetAllDataFilePathNameOnly.2 = ["/data/u1"] ∧
    (storeS1S2.fileFields.map (fun t => (t.1, t.2.1))) = [("s1", "doc")] :=
  ⟨(GetAllDataFilePathNameOnly_files storeS1S2 (by
      refine ⟨by simp [GoMap.WF, GoMap.keys, storeS1S2], ?_⟩
      intro c hc
      simp only [storeS1S2, List.mem_cons, List.mem_singleton, List.not_mem_nil, or_false] at hc
      rcases hc with hc | hc <;> subst hc <;> simp [GoMap.WF, GoMap.keys])).1.trans rfl,
    rfl⟩

/-! ## Go maps: entries and keys after an assignment -/

namespace GoMap

theorem mem_of_mem_store {β : Type} (m : GoMap β) (k : String) (v : β) (e : String × β)
    (h : e ∈ store m k v) : e ∈ m ∨ e = (k, v) := by
  induction m with
  | nil =>
    simp only [store, List.mem_singleton] at h
    exact Or.inr h
  | cons a t ih =>
    obtain ⟨k', v'⟩ := a
    by_cases hk : k' = k
    · simp only [store, if_pos hk, List.mem_cons] at h
      rcases h with h | h
      · exact Or.inr h
      · exact Or.inl (List.mem_cons_of_mem _ h)
    · simp only [store, if_neg hk, List.mem_cons] at h
      rcases h with h | h
      · exact Or.inl (h ▸ List.mem_cons_self _ _)
      · rcases ih h with h' | h'
        · exact Or.inl (List.mem_cons_of_mem _ h')
        · exact Or.inr h'

theorem mem_keys_store {β : Type} (m : GoMap β) (k k' : String) (v : β) :
    k' ∈ keys (store m k v) ↔ k' = k ∨ k' ∈ keys m := by
  induction m with
  | nil => simp [store, keys]
  | cons a t ih =>
    obtain ⟨k₀, v₀⟩ := a
    by_cases hk : k₀ = k
    · subst hk
      simp [store, keys]
    · have ih' : k' ∈ List.map Prod.fst (store t k v) ↔ k' = k ∨ k' ∈ List.map Prod.fst t := ih
      simp only [store, if_neg hk, keys, List.map_cons, List.mem_cons, ih']
      tauto

theorem WF_store {β : Type} (m : GoMap β) (k : String) (v : β) (h : WF m) :
    WF (store m k v) := by
  induction m with
  | nil => simp [store, WF, keys]
  | cons a t ih =>
    obtain ⟨k₀, v₀⟩ := a
    have hnd : k₀ ∉ keys t ∧ WF t := by simpa [WF, keys] using h
    by_cases hk : k₀ = k
    · subst hk
      simpa [store, WF, keys] using h
    · have hmem : k₀ ∉ keys (store t k v) := by
        rw [mem_keys_store]
        rintro (h' | h')
        · exact hk h'
        · exact hnd.1 h'
      have hwf : WF (store t k v) := ih hnd.2
      simp only [store, if_neg hk, WF, keys, List.map_cons, List.nodup_cons]
      exact ⟨hmem, hwf⟩

theorem mem_of_lookup_eq_some {β : Type} (m : GoMap β) (k : String) (v : β)
    (h : lookup m k = some v) : (k, v) ∈ m := by
  induction m with
  | nil => simp [lookup] at h
  | cons a t ih =>
    obtain ⟨k', v'⟩ := a
    by_cases hk : k' = k
    · simp only [lookup, if_pos hk, Option.some.injEq] at h
      subst hk
      subst h
      exact List.mem_cons_self _ _
    · simp only [lookup, if_neg hk] at h
      exact List.mem_cons_of_mem _ (ih h)

end GoMap

/-! ## GetAllDataFile -/

theorem allDataFileStep_file (acc : GoMap Value × GoMap file.IO) (k : String)
    (fileInfo : file.IO) :
    DataManager.allDataFileStep acc (k, Value.file fileInfo)
      = (acc.1, GoMap.store acc.2 k fileInfo) := rfl

theorem allDataFileStep_other (acc : GoMap Value × GoMap file.IO) (k : String) (v : Value)
    (h : ∀ fileInfo, v ≠ Value.file fileInfo) :
    DataManager.allDataFileStep acc (k, v) = (GoMap.store acc.1 k v, acc.2) := by
  cases v with
  | file f => exact absurd rfl (h f)
  | _ => rfl

theorem is_file_or_not (v : Value) :
    (∃ fileInfo, v = Value.file fileInfo) ∨ (∀ fileInfo, v ≠ Value.file fileInfo) := by
  cases v with
  | file f => exact Or.inl ⟨f, rfl⟩
  | _ => exact Or.inr (fun f h => by cases h)

/-- The loop of `GetAllDataFile` over a run of fields: keys once entered stay,
every field lands in the mapping of its kind, and `dat` takes no descriptor. -/
theorem allDataFile_fold (es : GoMap Value) (acc : GoMap Value × GoMap file.IO) :
    (∀ k, k ∈ GoMap.keys acc.1 → k ∈ GoMap.keys (es.foldl DataManager.allDataFileStep acc).1) ∧
    (∀ k, k ∈ GoMap.keys acc.2 → k ∈ GoMap.keys (es.foldl DataManager.allDataFileStep acc).2) ∧
    (∀ e ∈ es, (∃ fileInfo, e.2 = Value.file fileInfo) →
      e.1 ∈ GoMap.keys (es.foldl DataManager.allDataFileStep acc).2) ∧
    (∀ e ∈ es, (∀ fileInfo, e.2 ≠ Value.file fileInfo) →
      e.1 ∈ GoMap.keys (es.foldl DataManager.allDataFileStep acc).1) ∧
    ((∀ e ∈ acc.1, ∀ fileInfo, e.2 ≠ Value.file fileInfo) →
      ∀ e ∈ (es.foldl DataManager.allDataFileStep acc).1, ∀ fileInfo,
        e.2 ≠ Value.file fileInfo) := by
  induction es generalizing acc with
  | nil =>
    refine ⟨fun k h => h, fun k h => h, ?_, ?_, fun h => h⟩
    · intro e he
      cases he
    · intro e he
      cases he
  | cons a t ih =>
    obtain ⟨k₀, v₀⟩ := a
    obtain ⟨ih1, ih2, ih3, ih4, ih5⟩ := ih (DataManager.allDataFileStep acc (k₀, v₀))
    rw [List.foldl_cons]
    rcases is_file_or_not v₀ with ⟨f₀, hf⟩ | hnf
    · subst hf
      rw [allDataFileStep_file] at ih1 ih2 ih3 ih4 ih5 ⊢
      refine ⟨ih1, ?_, ?_, ?_, ih5⟩
      · intro k hk
        exact ih2 k ((GoMap.mem_keys_store _ _ _ _).mpr (Or.inr hk))
      · intro e he hfile
        rcases List.mem_cons.mp he with he | he
        · subst he
          exact ih2 k₀ ((GoMap.mem_keys_store _ _ _ _).mpr (Or.inl rfl))
        · exact ih3 e he hfile
      · intro e he hnot
        rcases List.mem_cons.mp he with he | he
        · subst he
          exact absurd rfl (hnot f₀)
        · exact ih4 e he hnot
    · rw [allDataFileStep_other acc k₀ v₀ hnf] at ih1 ih2 ih3 ih4 ih5 ⊢
      refine ⟨?_, ih2, ?_, ?_, ?_⟩
      · intro k hk
        exact ih1 k ((GoMap.mem_keys_store _ _ _ _).mpr (Or.inr hk))
      · intro e he hfile
        rcases List.mem_cons.mp he with he | he
        · subst he
          obtain ⟨f, hf⟩ := hfile
          exact absurd hf (hnf f)
        · exact ih3 e he hfile
      · intro e he hnot
        rcases List.mem_cons.mp he with he | he
        · subst he
          exact ih1 k₀ ((GoMap.mem_keys_store _ _ _ _).mpr (Or.inl rfl))
        · exact ih4 e he hnot
      · intro hacc
        apply ih5
        intro e he
        rcases GoMap.mem_of_mem_store _ _ _ _ he with he | he
        · exact hacc e he
        · subst he
          exact hnf

/-- C11: `GetAllDataFile` returns two mappings (both nil for the store without
entry): `files` holds File Descriptors only (its values have the descriptor
type), no value of `dat` is a File Descriptor, the name of every field of every
record whose value is a File Descriptor is a key of `files`, and the name of
every field whose value is no File Descriptor is a key of `dat`. -/
theorem GetAllDataFile_splits (me : DataManager) (baseUri : String) :
    (me.GetAllDataFile baseUri).2.2 = none ∧
    (me.DataCluster ≠ [] →
      ∃ (dat : GoMap Value) (files : GoMap file.IO),
        me.GetAllDataFile baseUri = (some dat, some files, none)) ∧
    (∀ e ∈ (me.GetAllDataFile baseUri).1.getD [], ∀ fileInfo, e.2 ≠ Value.file fileInfo) ∧
    (∀ k fileInfo, GoMap.lookup ((me.GetAllDataFile baseUri).1.getD []) k
        ≠ some (Value.file fileInfo)) ∧
    (∀ c ∈ me.DataCluster, ∀ e ∈ c.2.getD [], (∃ fileInfo, e.2 = Value.file fileInfo) →
      e.1 ∈ GoMap.keys ((me.GetAllDataFile baseUri).2.1.getD [])) ∧
    (∀ c ∈ me.DataCluster, ∀ e ∈ c.2.getD [], (∀ fileInfo, e.2 ≠ Value.file fileInfo) →
      e.1 ∈ GoMap.keys ((me.GetAllDataFile baseUri).1.getD [])) := by
  by_cases hlen : me.DataCluster.length = 0
  · have hnil : me.DataCluster = [] := List.length_eq_zero.mp hlen
    simp [DataManager.GetAllDataFile, hnil, GoMap.lookup]
  · have hres : me.GetAllDataFile baseUri
        = (some (me.allFields.foldl DataManager.allDataFileStep ([], [])).1,
           some (me.allFields.foldl DataManager.allDataFileStep ([], [])).2, none) := by
      unfold DataManager.GetAllDataFile DataManager.allFields
      rw [if_neg hlen]
      simp only []
      rw [GoMap.foldl_foldl_eq_foldl_flatMap DataManager.allDataFileStep
        (fun c => c.2.getD []) me.DataCluster]
    obtain ⟨_, _, h3, h4, h5⟩ := allDataFile_fold me.allFields ([], [])
    have hno : ∀ e ∈ (me.allFields.foldl DataManager.allDataFileStep ([], [])).1,
        ∀ fileInfo, e.2 ≠ Value.file fileInfo := by
      apply h5
      intro e he
      cases he
    have hmem : ∀ c ∈ me.DataCluster, ∀ e ∈ c.2.getD [], e ∈ me.allFields := by
      intro c hc e he
      unfold DataManager.allFields
      exact List.mem_flatMap.mpr ⟨c, hc, he⟩
    rw [hres]
    refine ⟨rfl, fun _ => ⟨_, _, rfl⟩, hno, ?_, ?_, ?_⟩
    · intro k fileInfo hl
      exact hno _ (GoMap.mem_of_lookup_eq_some _ _ _ hl) fileInfo rfl
    · intro c hc e he hfile
      exact h3 e (hmem c hc e he) hfile
    · intro c hc e he hnot
      exact h4 e (hmem c hc e he) hnot

/-! ## GetDataFiles -/

/-- The loop of `GetDataFiles` assigns the descriptor fields one by one. -/
theorem filesStep_fold (es : GoMap Value) (acc : GoMap file.IO) :
    es.foldl DataManager.filesStep acc
      = (file.MapIO.fileFields (some es)).foldl (fun a e => GoMap.store a e.1 e.2) acc := by
  induction es generalizing acc with
  | nil => rfl
  | cons a t ih =>
    obtain ⟨k, v⟩ := a
    rw [List.foldl_cons, ih]
    cases v <;> simp [DataManager.filesStep, file.MapIO.fileFields]

theorem lookup_fileFields (es : GoMap Value) (h : GoMap.WF es) (name : String)
    (fileInfo : file.IO) :
    GoMap.lookup ((file.MapIO.fileFields (some es)).foldl
        (fun a e => GoMap.store a e.1 e.2) []) name = some fileInfo
      ↔ GoMap.lookup es name = some (Value.file fileInfo) := by
  have hwf : GoMap.WF (file.MapIO.fileFields (some es)) :=
    List.Nodup.sublist (fileFields_keys_sublist es) h
  rw [GoMap.lookup_foldl_store, GoMap.lookup_reverse _ hwf]
  have hnone : GoMap.lookup ([] : GoMap file.IO) name = none := rfl
  rw [hnone]
  have hor : ∀ o : Option file.IO, (o <|> none) = o := by
    intro o
    cases o <;> rfl
  rw [hor, GoMap.lookup_eq_some_iff_mem _ hwf, GoMap.lookup_eq_some_iff_mem _ h]
  exact mem_fileFields (some es) name fileInfo

/-- C12: for a non-empty `formID`, `GetDataFiles` returns a nil error; when the
identifier has an entry, the mapping it returns has exactly the fields of the
record whose values are File Descriptors, each mapped to that descriptor (a
scalar, a nested mapping and the nil interface are left out); when the
identifier has no entry the result is the nil map. -/
theorem GetDataFiles_contract (me : DataManager) (formID baseUri : String)
    (hid : formID ≠ "") (hwf : me.WF) :
    (me.GetDataFiles formID baseUri).2 = none ∧
    (GoMap.lookup me.DataCluster formID = none → (me.GetDataFiles formID baseUri).1 = none) ∧
    (∀ r, GoMap.lookup me.DataCluster formID = some r →
      ∃ files, (me.GetDataFiles formID baseUri).1 = some files ∧
        ∀ name fileInfo, GoMap.lookup files name = some fileInfo
          ↔ r.field name = some (Value.file fileInfo)) := by
  unfold DataManager.GetDataFiles
  rw [if_pos hid]
  cases hl : GoMap.lookup me.DataCluster formID with
  | none =>
    refine ⟨rfl, fun _ => rfl, ?_⟩
    intro r hr
    cases hr
  | some r₀ =>
    refine ⟨rfl, fun h => (by cases h), ?_⟩
    intro r hr
    cases hr
    refine ⟨_, rfl, ?_⟩
    intro name fileInfo
    have hrec : GoMap.WF (r₀.getD []) := hwf.2 _ (GoMap.mem_of_lookup_eq_some _ _ _ hl)
    rw [filesStep_fold, lookup_fileFields _ hrec, field_eq_lookup_getD]

/-- C12, at a concrete input: the record `s1` holds a name and one file. -/
theorem GetDataFiles_contract_witness :
    storeS1.GetDataFiles "s1" "" = (some [("doc", docA)], none) ∧
    storeS1.GetDataFiles "s2" "" = (none, none) :=
  ⟨Prod.ext rfl (GetDataFiles_contract storeS1 "s1" "" (by decide)
      ⟨by simp [GoMap.WF, GoMap.keys, storeS1], by
        intro c hc
        simp only [storeS1, List.mem_singleton] at hc
        subst hc
        simp [GoMap.WF, GoMap.keys]⟩).1,
    Prod.ext
      ((GetDataFiles_contract storeS1 "s2" "" (by decide)
        ⟨by simp [GoMap.WF, GoMap.keys, storeS1], by
          intro c hc
          simp only [storeS1, List.mem_singleton] at hc
          subst hc
          simp [GoMap.WF, GoMap.keys]⟩).2.1 rfl)
      rfl⟩

/-! ## Writing a file and streaming it back -/

theorem GetDataFile_cases (me : DataManager) (formID name : String) :
    (me.GetDataFile formID name).1 = none ∨
      ∃ d, me.GetDataFile formID name = (some d, none) := by
  unfold DataManager.GetDataFile
  by_cases h : formID ≠ "" ∧ name ≠ ""
  · rw [if_pos h]
    cases GoMap.lookup me.DataCluster formID with
    | none => exact Or.inl rfl
    | some mapIo =>
      cases hg : file.MapIO.GetFileInfo mapIo me.BaseFilePath name with
      | none => exact Or.inl (by simp only [hg])
      | some fi => exact Or.inr ⟨fi, by simp only [hg]⟩
  · rw [if_neg h]
    exact Or.inl rfl

/-- In either branch `PutDataFile` writes one descriptor `x` and leaves what the
write returns in the field. -/
theorem PutDataFile_result (me : DataManager) (fs : Disk) (formID name : String)
    (f : file.Meta) (reader : Reader) (uid : String) :
    ∃ x : file.IO,
      me.PutDataFile fs formID name f reader uid =
        ({ me with
            DataCluster :=
              GoMap.store (me.ensureRecord formID).2 formID
                (some (GoMap.store (me.ensureRecord formID).1 name
                  (Value.file (x.Write fs reader).1))) },
          (x.Write fs reader).2.1, (x.Write fs reader).2.2.1, (x.Write fs reader).2.2.2) := by
  rcases GetDataFile_cases me formID name with h | ⟨d, h⟩
  · exact ⟨_, PutDataFile_create me fs formID name f reader uid h⟩
  · exact ⟨_, PutDataFile_update me fs formID name f reader uid d h⟩

/-- C13: after `PutDataFile(formID, name, meta, reader over b)` succeeds for
non-empty keys, with `written = len(b)`, `GetDataFileWriter(formID, name, w)` on
the disk it left appends exactly `b` to `w`, returns `n = len(b)`, which is the
size recorded in the descriptor it returns, and returns a nil error. -/
theorem PutDataFile_GetDataFileWriter_roundtrip (me : DataManager) (fs : Disk)
    (formID name : String) (f : file.Meta) (reader : Reader) (uid : String) (w : io.Writer)
    (hid : formID ≠ "") (hname : name ≠ "")
    (hok : (me.PutDataFile fs formID name f reader uid).2.2.2 = none) :
    (me.PutDataFile fs formID name f reader uid).2.2.1 = (reader.data.length : Int) ∧
    ∃ d : file.IO,
      (me.PutDataFile fs formID name f reader uid).1.GetDataFileWriter
          (me.PutDataFile fs formID name f reader uid).2.1 formID name (some w)
        = ((reader.data.length : Int), some d, none, some { data := w.data ++ reader.data }) ∧
      d.size = (reader.data.length : Int) := by
  obtain ⟨x, hx⟩ := PutDataFile_result me fs formID name f reader uid
  rw [hx] at hok ⊢
  have hk := Write_keeps x fs reader
  have ho := Write_ok x fs reader hok
  have hget := GetDataFile_after_store me (me.ensureRecord formID).2 (me.ensureRecord formID).1
    formID name (x.Write fs reader).1 hid hname
  refine ⟨ho.2.1, (x.Write fs reader).1, ?_, ho.1.trans ho.2.1⟩
  have hcontent : (x.Write fs reader).2.1.content (x.Write fs reader).1.Path
      = some reader.data := by
    rw [hk.2.2.2.2]
    exact ho.2.2
  simp only [DataManager.GetDataFileWriter, hid, hname, ne_eq, not_false_eq_true, and_self,
    if_true, hget, hcontent]

/-- C13, at a concrete input: two bytes uploaded to a new field of `s1` and read
back into an empty writer. -/
theorem PutDataFile_GetDataFileWriter_roundtrip_witness :
    ∃ d : file.IO,
      (storeS1.PutDataFile emptyDisk "s1" "cv" pdfB bytesB "u2").1.GetDataFileWriter
          (storeS1.PutDataFile emptyDisk "s1" "cv" pdfB bytesB "u2").2.1 "s1" "cv"
          (some { data := [] })
        = (2, some d, none, some { data := [7, 8] }) ∧
      d.size = 2 :=
  (PutDataFile_GetDataFileWriter_roundtrip storeS1 emptyDisk "s1" "cv" pdfB bytesB "u2"
    { data := [] } (by decide) (by decide) rfl).2

/-! ## GetDataByPath -/

theorem walk_null (segs : List String) : file.walk segs Value.null = Value.null := by
  cases segs <;> rfl

theorem walk_append (pre rest : List String) (v : Value) :
    file.walk (pre ++ rest) v = file.walk rest (file.walk pre v) := by
  induction pre generalizing v with
  | nil => rfl
  | cons seg t ih =>
    cases v with
    | map m =>
      cases hl : GoMap.lookup m seg with
      | none => simp [file.walk, hl, walk_null]
      | some v' => simpa [file.walk, hl] using ih v'
    | _ => simp [file.walk, walk_null]

/-- A path whose next segment is missing (the value reached is no mapping, or a
mapping without that key) resolves to the nil interface. -/
theorem walk_missing_segment (pre rest : List String) (seg : String) (v : Value)
    (h : ∀ m, file.walk pre v = Value.map m → GoMap.lookup m seg = none) :
    file.walk (pre ++ seg :: rest) v = Value.null := by
  rw [walk_append]
  cases hv : file.walk pre v with
  | map m => simp [file.walk, h m hv, walk_null]
  | _ => simp [file.walk]

/-- C14: for a non-empty `formID`, `GetDataByPath` returns a nil error; it
returns the nil interface when the identifier has no entry, and otherwise the
result of `Get(path)` on the record, which is the nil interface, not an error,
when a segment of the path is missing. -/
theorem GetDataByPath_contract (me : DataManager) (formID dataPath : String)
    (hid : formID ≠ "") :
    (me.GetDataByPath formID dataPath).2 = none ∧
    (GoMap.lookup me.DataCluster formID = none →
      (me.GetDataByPath formID dataPath).1 = Value.null) ∧
    (∀ mapIo, GoMap.lookup me.DataCluster formID = some mapIo →
      (me.GetDataByPath formID dataPath).1 = mapIo.Get dataPath) ∧
    (∀ (r : GoMap Value) (pre rest : List String) (seg : String),
      GoMap.lookup me.DataCluster formID = some (some r) →
      file.splitPath dataPath.toList [] = pre ++ seg :: rest →
      (∀ m, file.walk pre (Value.map r) = Value.map m → GoMap.lookup m seg = none) →
      me.GetDataByPath formID dataPath = (Value.null, none)) := by
  unfold DataManager.GetDataByPath
  rw [if_pos hid]
  cases hl : GoMap.lookup me.DataCluster formID with
  | none =>
    refine ⟨rfl, fun _ => rfl, fun mapIo h => (by cases h), ?_⟩
    intro r pre rest seg h
    cases h
  | some mapIo₀ =>
    refine ⟨rfl, fun h => (by cases h), ?_, ?_⟩
    · intro mapIo h
      cases h
      rfl
    · intro r pre rest seg h hsplit hmiss
      cases h
      simp only [file.MapIO.Get, hsplit, walk_missing_segment pre rest seg _ hmiss]

/-- C14, at concrete inputs: a path into a record without that field, a path
whose first segment is a scalar, and an identifier without record. -/
theorem GetDataByPath_contract_witness :
    storeS1.GetDataByPath "s1" "address.city" = (Value.null, none) ∧
    storeS1.GetDataByPath "s1" "name.first" = (Value.null, none) ∧
    storeS1.GetDataByPath "s1" "name" = (Value.str "Alice", none) ∧
    (storeS1.GetDataByPath "missing" "name").1 = Value.null :=
  ⟨(GetDataByPath_contract storeS1 "s1" "address.city" (by decide)).2.2.2
      [("name", Value.str "Alice"), ("doc", Value.file docA)] [] ["city"] "address" rfl rfl
      (by
        intro m hm
        cases hm
        rfl),
    (GetDataByPath_contract storeS1 "s1" "name.first" (by decide)).2.2.2
      [("name", Value.str "Alice"), ("doc", Value.file docA)] ["name"] [] "first" rfl rfl
      (by
        intro m hm
        cases hm),
    rfl,
    (GetDataByPath_contract storeS1 "missing" "name" (by decide)).2.1 rfl⟩

/-! ## OnLoad -/

theorem OnLoad_flag (me : DataManager) : me.OnLoad.madeFileInfos = true := by
  unfold DataManager.OnLoad DataManager.mkFileInfos
  cases h : me.madeFileInfos <;> simp [h]

theorem OnLoad_of_flag (me : DataManager) (h : me.madeFileInfos = true) : me.OnLoad = me := by
  unfold DataManager.OnLoad DataManager.mkFileInfos
  simp [h]

theorem PutData_flag (me me' : DataManager) (formID : String) (dat : GoMap Value)
    (err : Option Error) (h : me.PutData formID dat = Except.ok (me', err)) :
    me'.madeFileInfos = me.madeFileInfos ∧ me'.BaseFilePath = me.BaseFilePath := by
  unfold DataManager.PutData at h
  by_cases hid : formID ≠ ""
  · rw [if_pos hid] at h
    cases hl : GoMap.lookup me.DataCluster formID with
    | some mapIo =>
      rw [hl] at h
      cases hm : file.MapIO.MergeWith mapIo dat with
      | error p => simp [hm] at h
      | ok merged =>
        simp only [hm, Except.ok.injEq, Prod.mk.injEq] at h
        rw [← h.1]
        exact ⟨rfl, rfl⟩
    | none =>
      rw [hl] at h
      cases hm : file.MapIO.MergeWith (some []) dat with
      | error p => simp [hm] at h
      | ok merged =>
        simp only [hm, Except.ok.injEq, Prod.mk.injEq] at h
        rw [← h.1]
        exact ⟨rfl, rfl⟩
  · rw [if_neg hid] at h
    simp only [Except.ok.injEq, Prod.mk.injEq] at h
    rw [← h.1]
    exact ⟨rfl, rfl⟩

/-- No public operation resets the flag of the rehydration pass. -/
theorem Step_flag (me me' : DataManager) (hs : Step me me') (h : me.madeFileInfos = true) :
    me'.madeFileInfos = true := by
  cases hs with
  | onLoad => exact OnLoad_flag me
  | clear formID =>
    unfold DataManager.Clear
    by_cases hid : formID ≠ ""
    · rw [if_pos hid]
      exact h
    · rw [if_neg hid]
      exact h
  | putData _ formID dat err hput => rw [(PutData_flag me me' formID dat err hput).1, h]
  | putDataWithoutMerge formID dat =>
    unfold DataManager.PutDataWithoutMerge
    by_cases hid : formID ≠ ""
    · rw [if_pos hid]
      exact h
    · rw [if_neg hid]
      exact h
  | putDataFile fs formID name f reader uid =>
    obtain ⟨x, hx⟩ := PutDataFile_result me fs formID name f reader uid
    rw [hx]
    exact h

/-- C15: `OnLoad` is idempotent: calling it twice leaves the store in the state
of calling it once, and once it has run, an `OnLoad` after any run of public
operations (writes, merges, uploads, clears) changes nothing in the store. -/
theorem OnLoad_idempotent (me : DataManager) :
    me.OnLoad.OnLoad = me.OnLoad ∧
    (∀ me', Relation.ReflTransGen Step me.OnLoad me' → me'.OnLoad = me') := by
  refine ⟨OnLoad_of_flag _ (OnLoad_flag me), ?_⟩
  intro me' hrun
  apply OnLoad_of_flag
  induction hrun with
  | refl => exact OnLoad_flag me
  | tail _ hstep ih => exact Step_flag _ _ hstep ih

/-! ## The lock held while the mapping is touched -/

/-- C16 (the code departs from the claim): `Clear` removes the top-level entry
while it holds the read lock only (`RLock`, deferred `RUnlock`), for every
non-empty identifier.  `PutData`, `PutDataWithoutMerge` and `PutDataFile` touch
the mapping under the write lock, and the operations that only read it hold the
read lock. -/
theorem Clear_mutates_under_read_lock :
    disciplined Held.nothing (DataManager.Clear.events "s1") = false ∧
    (∀ formID, formID ≠ "" →
      disciplined Held.nothing (DataManager.Clear.events formID) = false) ∧
    (∀ me formID dat,
      disciplined Held.nothing (DataManager.PutData.events me formID dat) = true) ∧
    (∀ formID, disciplined Held.nothing (DataManager.PutDataWithoutMerge.events formID) = true) ∧
    (∀ me formID name,
      disciplined Held.nothing (DataManager.PutDataFile.events me formID name) = true) ∧
    (∀ formID name, disciplined Held.nothing (DataManager.GetDataFile.events formID name) = true) ∧
    (∀ formID name,
      disciplined Held.nothing (DataManager.GetDataFileWriter.events formID name) = true) ∧
    (∀ formID, disciplined Held.nothing (DataManager.GetDataFiles.events formID) = true) ∧
    (∀ formID, disciplined Held.nothing (DataManager.GetData.events formID) = true) ∧
    (∀ formID, disciplined Held.nothing (DataManager.GetDataByPath.events formID) = true) ∧
    disciplined Held.nothing DataManager.GetAll.events = true := by
  refine ⟨by decide, ?_, ?_, ?_, ?_, ?_, ?_, ?_, ?_, ?_, by decide⟩
  · intro formID hid
    simp [DataManager.Clear.events, hid, disciplined]
  · intro me formID dat
    unfold DataManager.PutData.events
    by_cases hid : formID ≠ ""
    · rw [if_pos hid]
      cases GoMap.lookup me.DataCluster formID with
      | none => simp [disciplined]
      | some mapIo =>
        cases hm : file.MapIO.MergeWith mapIo dat <;> simp [hm, disciplined]
    · rw [if_neg hid]
      rfl
  · intro formID
    by_cases hid : formID ≠ "" <;> simp [DataManager.PutDataWithoutMerge.events, hid, disciplined]
  · intro me formID name
    unfold DataManager.PutDataFile.events DataManager.GetDataFile.events
    by_cases hk : formID ≠ "" ∧ name ≠ ""
    · rw [if_pos hk]
      cases me.record formID <;> simp [disciplined]
    · rw [if_neg hk]
      cases me.record formID <;> simp [disciplined]
  · intro formID name
    by_cases hk : formID ≠ "" ∧ name ≠ "" <;>
      simp [DataManager.GetDataFile.events, hk, disciplined]
  · intro formID name
    by_cases hk : formID ≠ "" ∧ name ≠ "" <;>
      simp [DataManager.GetDataFileWriter.events, DataManager.GetDataFile.events, hk, disciplined]
  · intro formID
    by_cases hid : formID ≠ "" <;> simp [DataManager.GetDataFiles.events, hid, disciplined]
  · intro formID
    by_cases hid : formID ≠ "" <;> simp [DataManager.GetData.events, hid, disciplined]
  · intro formID
    by_cases hid : formID ≠ "" <;> simp [DataManager.GetDataByPath.events, hid, disciplined]

/-! ## PutData on two identifiers -/

/-- For a non-empty identifier `PutData` is the merge into `mergeTarget`, with
the merged record assigned to the identifier. -/
theorem PutData_eq_merge (me : DataManager) (formID : String) (dat : GoMap Value)
    (hid : formID ≠ "") :
    me.PutData formID dat =
      match (me.mergeTarget formID).MergeWith dat with
      | Except.ok merged =>
        Except.ok ({ me with DataCluster := GoMap.store me.DataCluster formID merged }, none)
      | Except.error p => Except.error p := by
  unfold DataManager.PutData DataManager.mergeTarget
  rw [if_pos hid]
  cases GoMap.lookup me.DataCluster formID <;> rfl

theorem mergeTarget_congr (me me' : DataManager) (formID : String)
    (h : GoMap.lookup me'.DataCluster formID = GoMap.lookup me.DataCluster formID) :
    me'.mergeTarget formID = me.mergeTarget formID := by
  unfold DataManager.mergeTarget
  rw [h]

theorem PutData_ok_merge (me me' : DataManager) (formID : String) (dat : GoMap Value)
    (err : Option Error) (hid : formID ≠ "")
    (h : me.PutData formID dat = Except.ok (me', err)) :
    ∃ merged, (me.mergeTarget formID).MergeWith dat = Except.ok merged ∧
      me' = { me with DataCluster := GoMap.store me.DataCluster formID merged } ∧
      err = none := by
  rw [PutData_eq_merge me formID dat hid] at h
  cases hm : file.MapIO.MergeWith (me.mergeTarget formID) dat with
  | error p => simp [hm] at h
  | ok merged =>
    simp only [hm, Except.ok.injEq, Prod.mk.injEq] at h
    exact ⟨merged, rfl, h.1.symm, h.2.symm⟩

/-- Two merges on the store in which every identifier has a map object of its
own: for distinct non-empty identifiers `A` and `B`, a `PutData(A, DA)` that
returns leaves the entry of `B` unchanged; and when `PutData(A, DA)` followed by
`PutData(B, DB)` returns, so does the other order, both orders end in the same
store (the same record under every identifier, the same base directory and
flag), and in it the record of each identifier is the one its own merge alone
gives. -/
theorem PutData_distinct_ids_commute (me : DataManager) (A B : String)
    (DA DB : GoMap Value) (hA : A ≠ "") (hB : B ≠ "") (hAB : A ≠ B) :
    (∀ me' err, me.PutData A DA = Except.ok (me', err) →
      GoMap.lookup me'.DataCluster B = GoMap.lookup me.DataCluster B) ∧
    (∀ sA sAB eA eAB, me.PutData A DA = Except.ok (sA, eA) →
      sA.PutData B DB = Except.ok (sAB, eAB) →
      ∃ sB sBA, me.PutData B DB = Except.ok (sB, none) ∧
        sB.PutData A DA = Except.ok (sBA, none) ∧
        (∀ formID, GoMap.lookup sAB.DataCluster formID = GoMap.lookup sBA.DataCluster formID) ∧
        sAB.BaseFilePath = sBA.BaseFilePath ∧ sAB.madeFileInfos = sBA.madeFileInfos ∧
        GoMap.lookup sAB.DataCluster A = GoMap.lookup sA.DataCluster A ∧
        GoMap.lookup sAB.DataCluster B = GoMap.lookup sB.DataCluster B) := by
  have hBA : B ≠ A := fun h => hAB h.symm
  refine ⟨?_, ?_⟩
  · intro me' err h
    obtain ⟨merged, _, hme', _⟩ := PutData_ok_merge me me' A DA err hA h
    rw [hme']
    exact GoMap.lookup_store_other _ _ _ _ hBA
  · intro sA sAB eA eAB h1 h2
    obtain ⟨mA, hmA, hsA, _⟩ := PutData_ok_merge me sA A DA eA hA h1
    obtain ⟨mB, hmB, hsAB, _⟩ := PutData_ok_merge sA sAB B DB eAB hB h2
    have htB : sA.mergeTarget B = me.mergeTarget B := by
      apply mergeTarget_congr
      rw [hsA]
      exact GoMap.lookup_store_other _ _ _ _ hBA
    rw [htB] at hmB
    have hputB : me.PutData B DB
        = Except.ok ({ me with DataCluster := GoMap.store me.DataCluster B mB }, none) := by
      rw [PutData_eq_merge me B DB hB, hmB]
    have htA : DataManager.mergeTarget
        { me with DataCluster := GoMap.store me.DataCluster B mB } A = me.mergeTarget A := by
      apply mergeTarget_congr
      exact GoMap.lookup_store_other _ _ _ _ hAB
    have hputBA : DataManager.PutData
        { me with DataCluster := GoMap.store me.DataCluster B mB } A DA
        = Except.ok ({ me with
            DataCluster := GoMap.store (GoMap.store me.DataCluster B mB) A mA }, none) := by
      rw [PutData_eq_merge _ A DA hA, htA, hmA]
    refine ⟨_, _, hputB, hputBA, ?_, ?_, ?_, ?_, ?_⟩
    · intro formID
      rw [hsAB, hsA]
      simp only [GoMap.lookup_store]
      by_cases h1 : A = formID
      · have h2 : ¬ B = formID := fun h => hBA (h.trans h1.symm)
        simp [GoMap.lookup, h1, h2]
      · by_cases h2 : B = formID
        · simp [GoMap.lookup, h1, h2]
        · simp [GoMap.lookup, h1, h2]
    · rw [hsAB, hsA]
    · rw [hsAB, hsA]
    · rw [hsAB]
      exact GoMap.lookup_store_other _ _ _ _ hAB
    · rw [hsAB, hsA]
      simp only [GoMap.lookup_store_same]

/-- Two merges at a concrete input: a name merged into `s1` and an age merged into
`s2`, in both orders, on the store that holds `s1`. -/
theorem PutData_distinct_ids_commute_witness :
    ∃ sB sBA, storeS1.PutData "s2" [("age", Value.num 30)] = Except.ok (sB, none) ∧
      sB.PutData "s1" [("name", Value.str "Bob")] = Except.ok (sBA, none) ∧
      GoMap.lookup sBA.DataCluster "s1"
        = some (some [("name", Value.str "Bob"), ("doc", Value.file docA)]) ∧
      GoMap.lookup sBA.DataCluster "s2" = some (some [("age", Value.num 30)]) := by
  obtain ⟨sB, sBA, h1, h2, hsame, _, _, _, _⟩ :=
    (PutData_distinct_ids_commute storeS1 "s1" "s2" [("name", Value.str "Bob")]
      [("age", Value.num 30)] (by decide) (by decide) (by decide)).2
      { DataCluster := [("s1", some [("name", Value.str "Bob"), ("doc", Value.file docA)])],
        BaseFilePath := "/data", madeFileInfos := false }
      { DataCluster :=
          [("s1", some [("name", Value.str "Bob"), ("doc", Value.file docA)]),
           ("s2", some [("age", Value.num 30)])],
        BaseFilePath := "/data", madeFileInfos := false }
      none none rfl rfl
  exact ⟨sB, sBA, h1, h2, (hsame "s1").symm.trans rfl, (hsame "s2").symm.trans rfl⟩

/-! ## PutData on a nil record -/

/-- C18 (the code departs from the claim): the store after
`PutDataWithoutMerge("s1", nil)` on a new store is reachable, and on it
`PutData("s1", {name: Alice})` does not return: the identifier has an entry, so
`MergeWith` is called on the nil record and the assignment to the nil map
panics.  The same holds for every store in which a non-empty identifier has a
nil record and for every non-empty delta.  `PutDataFile` on the same store
replaces the nil record by a new one and returns. -/
theorem PutData_panics_on_nil_record :
    Reachable storeNilRecord ∧
    storeNilRecord.PutData "s1" [("name", Value.str "Alice")]
      = Except.error Panic.assignmentToNilMap ∧
    (∀ (me : DataManager) (formID : String) (e : String × Value) (t : GoMap Value),
      formID ≠ "" → GoMap.lookup me.DataCluster formID = some none →
      me.PutData formID (e :: t) = Except.error Panic.assignmentToNilMap) ∧
    (storeNilRecord.PutDataFile emptyDisk "s1" "doc" pdfB bytesB "u2").2.2.2 = none ∧
    (∃ r d, GoMap.lookup
        (storeNilRecord.PutDataFile emptyDisk "s1" "doc" pdfB bytesB "u2").1.DataCluster "s1"
        = some (some r) ∧ GoMap.lookup r "doc" = some (Value.file d)) := by
  refine ⟨⟨"/data", Relation.ReflTransGen.single
      (Step.putDataWithoutMerge (NewDataManager "/data") "s1" none)⟩, rfl, ?_, rfl,
    ⟨_, _, rfl, rfl⟩⟩
  intro me formID e t hid hl
  simp [DataManager.PutData, hid, hl, file.MapIO.MergeWith]

/-! ## PutDataFile when the write fails -/

/-- C19, the claim as stated fails: with the empty identifier `PutDataFile`
takes the create branch (`GetDataFile` gave no descriptor), the write fails and
its error is returned, the store has a record under the empty identifier whose
field holds the new descriptor, and yet the following `GetDataFile` does not
succeed: it rejects the empty identifier. -/
theorem PutDataFile_failed_write_empty_formID :
    ((NewDataManager "/data").GetDataFile "" "doc").1 = none ∧
    ((NewDataManager "/data").PutDataFile emptyDisk "" "doc" pdfB brokenStream "u2").2.2.2
      = some (Error.ioFailure "/data/u2") ∧
    (∃ r d, GoMap.lookup
        ((NewDataManager "/data").PutDataFile emptyDisk "" "doc" pdfB brokenStream
          "u2").1.DataCluster ""
        = some (some r) ∧ GoMap.lookup r "doc" = some (Value.file d)) ∧
    ((NewDataManager "/data").PutDataFile emptyDisk "" "doc" pdfB brokenStream
        "u2").1.GetDataFile "" "doc"
      = (none, some Error.ErrInvalid) :=
  ⟨rfl, rfl, ⟨_, _, rfl, rfl⟩, rfl⟩

/-- C19, amended: for a non-empty `formID` and `name`, when `PutDataFile` takes
the create branch (`GetDataFile` gave no descriptor) and the byte write fails,
it returns the error of the write and the store is changed all the same: a
record for `formID` exists, its field `name` holds the newly created descriptor,
and a following `GetDataFile(formID, name)` returns that descriptor with a nil
error. -/
theorem PutDataFile_failed_write_keeps_descriptor (me : DataManager) (fs : Disk)
    (formID name : String) (f : file.Meta) (reader : Reader) (uid : String)
    (hid : formID ≠ "") (hname : name ≠ "")
    (hcreate : (me.GetDataFile formID name).1 = none)
    (_hfail : ((file.New me.BaseFilePath f uid).Write fs reader).2.2.2 ≠ none) :
    (me.PutDataFile fs formID name f reader uid).2.2.2
      = ((file.New me.BaseFilePath f uid).Write fs reader).2.2.2 ∧
    (∃ r, GoMap.lookup (me.PutDataFile fs formID name f reader uid).1.DataCluster formID
        = some (some r) ∧
      GoMap.lookup r name
        = some (Value.file ((file.New me.BaseFilePath f uid).Write fs reader).1)) ∧
    (me.PutDataFile fs formID name f reader uid).1.GetDataFile formID name
      = (some ((file.New me.BaseFilePath f uid).Write fs reader).1, none) ∧
    ((file.New me.BaseFilePath f uid).Write fs reader).1.name = f.Name ∧
    ((file.New me.BaseFilePath f uid).Write fs reader).1.contentType = f.ContentType ∧
    ((file.New me.BaseFilePath f uid).Write fs reader).1.Path
      = (file.New me.BaseFilePath f uid).Path := by
  rw [PutDataFile_create me fs formID name f reader uid hcreate]
  have hk := Write_keeps (file.New me.BaseFilePath f uid) fs reader
  refine ⟨rfl, ⟨_, GoMap.lookup_store_same _ _ _, GoMap.lookup_store_same _ _ _⟩,
    GetDataFile_after_store me _ _ formID name _ hid hname, ?_, ?_, hk.2.2.2.2⟩
  · rw [hk.2.2.1]
    rfl
  · rw [hk.2.2.2.1]
    rfl

/-- C19 amended, at a concrete input: a first upload to field `cv` of `s1`
whose stream breaks after one byte. -/
theorem PutDataFile_failed_write_keeps_descriptor_witness :
    (storeS1.PutDataFile emptyDisk "s1" "cv" pdfB brokenStream "u2").2.2.2
      = some (Error.ioFailure "/data/u2") ∧
    ∃ d, (storeS1.PutDataFile emptyDisk "s1" "cv" pdfB brokenStream "u2").1.GetDataFile
        "s1" "cv" = (some d, none) ∧ d.name = "b.pdf" :=
  ⟨(PutDataFile_failed_write_keeps_descriptor storeS1 emptyDisk "s1" "cv" pdfB brokenStream
      "u2" (by decide) (by decide) rfl (by decide)).1.trans rfl,
    _, (PutDataFile_failed_write_keeps_descriptor storeS1 emptyDisk "s1" "cv" pdfB brokenStream
      "u2" (by decide) (by decide) rfl (by decide)).2.2.1, rfl⟩

/-! ## GetAllData: the flattened mapping -/

theorem allData_fold_WF (baseFilePath : String) (es acc : GoMap Value) (h : GoMap.WF acc) :
    GoMap.WF (es.foldl (DataManager.allDataStep baseFilePath) acc) := by
  induction es generalizing acc with
  | nil => exact h
  | cons e t ih =>
    rw [List.foldl_cons, allDataStep_eq]
    exact ih _ (GoMap.WF_store _ _ _ h)

theorem mem_keys_allFields (me : DataManager) (k : String) :
    k ∈ GoMap.keys me.allFields ↔ ∃ c ∈ me.DataCluster, k ∈ GoMap.keys (c.2.getD []) := by
  unfold DataManager.allFields GoMap.keys
  rw [List.map_flatMap, List.mem_flatMap]

theorem mem_allFields (me : DataManager) (e : String × Value) :
    e ∈ me.allFields ↔ ∃ c ∈ me.DataCluster, e ∈ c.2.getD [] := by
  unfold DataManager.allFields
  rw [List.mem_flatMap]

/-- In a store that is a Go map, the entries of the records are the fields the
lookups find. -/
theorem mem_record_iff_field (me : DataManager) (hwf : me.WF) (k : String) (w : Value) :
    (∃ c ∈ me.DataCluster, (k, w) ∈ c.2.getD [])
      ↔ ∃ formID, (me.record formID).field k = some w := by
  constructor
  · rintro ⟨⟨formID, m⟩, hc, he⟩
    have hl : GoMap.lookup me.DataCluster formID = some m :=
      (GoMap.lookup_eq_some_iff_mem _ hwf.1 formID m).mpr hc
    have hrec : me.record formID = m := by simp [DataManager.record, hl]
    refine ⟨formID, ?_⟩
    rw [hrec, field_eq_lookup_getD, GoMap.lookup_eq_some_iff_mem _ (hwf.2 _ hc)]
    exact he
  · rintro ⟨formID, hfield⟩
    cases hl : GoMap.lookup me.DataCluster formID with
    | none =>
      have hrec : me.record formID = none := by simp [DataManager.record, hl]
      rw [hrec] at hfield
      simp [file.MapIO.field] at hfield
    | some m =>
      have hrec : me.record formID = m := by simp [DataManager.record, hl]
      rw [hrec, field_eq_lookup_getD] at hfield
      exact ⟨(formID, m), GoMap.mem_of_lookup_eq_some _ _ _ hl,
        GoMap.mem_of_lookup_eq_some _ _ _ hfield⟩

/-- When no field name occurs in two records, no field name occurs twice among
all fields. -/
theorem allFields_WF (me : DataManager) (hwf : me.WF)
    (hdisj : ∀ c ∈ me.DataCluster, ∀ c' ∈ me.DataCluster, c.1 ≠ c'.1 →
      ∀ k, k ∈ GoMap.keys (c.2.getD []) → k ∉ GoMap.keys (c'.2.getD [])) :
    GoMap.WF me.allFields := by
  unfold GoMap.WF DataManager.allFields GoMap.keys
  rw [List.map_flatMap, List.nodup_flatMap]
  constructor
  · intro c hc
    exact hwf.2 c hc
  · have hp : List.Pairwise (fun a b : String × file.MapIO => a.1 ≠ b.1) me.DataCluster := by
      have := hwf.1
      unfold GoMap.WF GoMap.keys List.Nodup at this
      exact List.pairwise_map.mp this
    refine List.Pairwise.imp_of_mem ?_ hp
    intro a b ha hb hab
    simp only [Function.onFun]
    intro k hka hkb
    exact hdisj a ha b hb hab k hka hkb

/-- When no field name occurs in two records, the mapping of `GetAllData` holds
under a name exactly the exported values that the lookups of the store find
under that name. -/
theorem GetAllData_by_lookups (me : DataManager) (h : me.DataCluster ≠ []) (hwf : me.WF)
    (hdisj : ∀ c ∈ me.DataCluster, ∀ c' ∈ me.DataCluster, c.1 ≠ c'.1 →
      ∀ k, k ∈ GoMap.keys (c.2.getD []) → k ∉ GoMap.keys (c'.2.getD [])) :
    ∃ dat, me.GetAllData = (some dat, none) ∧
      ∀ k v, GoMap.lookup dat k = some v
        ↔ ∃ formID w, (me.record formID).field k = some w ∧
            v = file.rehydrate me.BaseFilePath w := by
  obtain ⟨dat, hdat, hlook⟩ := GetAllData_lookup me h
  refine ⟨dat, hdat, ?_⟩
  intro k v
  have hall := allFields_WF me hwf hdisj
  rw [hlook k, GoMap.lookup_reverse _ hall, Option.map_eq_some']
  constructor
  · rintro ⟨w, hw, hwv⟩
    have hmem : (k, w) ∈ me.allFields := GoMap.mem_of_lookup_eq_some _ _ _ hw
    obtain ⟨formID, hf⟩ :=
      (mem_record_iff_field me hwf k w).mp ((mem_allFields me (k, w)).mp hmem)
    exact ⟨formID, w, hf, hwv.symm⟩
  · rintro ⟨formID, w, hf, hwv⟩
    refine ⟨w, ?_, hwv.symm⟩
    rw [GoMap.lookup_eq_some_iff_mem _ hall]
    exact (mem_allFields me (k, w)).mpr ((mem_record_iff_field me hwf k w).mpr ⟨formID, hf⟩)

/-- C20: with no record `GetAllData` returns nil.  With at least one record it
returns a mapping with one value per key, whose keys are the field names of all
records together, and each value is the exported form (`file.rehydrate`: a
descriptor as it is, a mapping of descriptor shape as a descriptor, any other
value unchanged) of that field in some record; so of two records that share a
field name only one value is kept.  When no field name occurs in two records,
the mapping holds under a name exactly the exported values the lookups of the
store find under that name, so two stores with the same records under the same
identifiers, whatever the order of their entries, give the same mapping. -/
theorem GetAllData_flattens (me : DataManager) :
    (me.DataCluster = [] → me.GetAllData = (none, none)) ∧
    (me.DataCluster ≠ [] →
      ∃ dat, me.GetAllData = (some dat, none) ∧
        GoMap.WF dat ∧
        (∀ k, k ∈ GoMap.keys dat ↔ ∃ c ∈ me.DataCluster, k ∈ GoMap.keys (c.2.getD [])) ∧
        (∀ k v, GoMap.lookup dat k = some v →
          ∃ c ∈ me.DataCluster, ∃ w, (k, w) ∈ c.2.getD [] ∧
            v = file.rehydrate me.BaseFilePath w) ∧
        (me.WF →
          (∀ c ∈ me.DataCluster, ∀ c' ∈ me.DataCluster, c.1 ≠ c'.1 →
            ∀ k, k ∈ GoMap.keys (c.2.getD []) → k ∉ GoMap.keys (c'.2.getD [])) →
          (∀ k v, GoMap.lookup dat k = some v
            ↔ ∃ formID w, (me.record formID).field k = some w ∧
                v = file.rehydrate me.BaseFilePath w) ∧
          (∀ (me' : DataManager) (dat' : GoMap Value), me'.WF →
            (∀ c ∈ me'.DataCluster, ∀ c' ∈ me'.DataCluster, c.1 ≠ c'.1 →
              ∀ k, k ∈ GoMap.keys (c.2.getD []) → k ∉ GoMap.keys (c'.2.getD [])) →
            me'.BaseFilePath = me.BaseFilePath →
            (∀ formID k, (me'.record formID).field k = (me.record formID).field k) →
            me'.GetAllData = (some dat', none) →
            ∀ k, GoMap.lookup dat' k = GoMap.lookup dat k))) := by
  refine ⟨?_, ?_⟩
  · intro h
    simp [DataManager.GetAllData, h]
  · intro h
    obtain ⟨dat, hdat, hlook⟩ := GetAllData_lookup me h
    have hlen : me.DataCluster.length > 0 := List.length_pos.mpr h
    have hexp : me.GetAllData
        = (some (me.allFields.foldl (DataManager.allDataStep me.BaseFilePath) []), none) := by
      unfold DataManager.GetAllData DataManager.allFields
      rw [if_pos hlen, GoMap.foldl_foldl_eq_foldl_flatMap
        (DataManager.allDataStep me.BaseFilePath) (fun c => c.2.getD []) me.DataCluster []]
    have hdat_eq : dat = me.allFields.foldl (DataManager.allDataStep me.BaseFilePath) [] := by
      rw [hdat] at hexp
      simpa using hexp
    have hwfdat : GoMap.WF dat := by
      rw [hdat_eq]
      exact allData_fold_WF _ _ _ (by simp [GoMap.WF, GoMap.keys])
    refine ⟨dat, hdat, hwfdat, ?_, ?_, ?_⟩
    · intro k
      rw [← mem_keys_allFields]
      have h1 : k ∈ GoMap.keys dat ↔ GoMap.lookup dat k ≠ none := by
        rw [Ne, GoMap.lookup_eq_none_iff]
        exact not_not.symm
      have h2 : k ∈ GoMap.keys me.allFields ↔ GoMap.lookup me.allFields.reverse k ≠ none := by
        rw [Ne, GoMap.lookup_eq_none_iff]
        simp [GoMap.keys]
      rw [h1, h2, hlook k, Ne, Ne, Option.map_eq_none']
    · intro k v hv
      rw [hlook k, Option.map_eq_some'] at hv
      obtain ⟨w, hw, hwv⟩ := hv
      have hmem : (k, w) ∈ me.allFields :=
        List.mem_reverse.mp (GoMap.mem_of_lookup_eq_some _ _ _ hw)
      obtain ⟨c, hc, he⟩ := (mem_allFields me (k, w)).mp hmem
      exact ⟨c, hc, w, he, hwv.symm⟩
    · intro hwf hdisj
      obtain ⟨dat₁, hdat₁, hiff₁⟩ := GetAllData_by_lookups me h hwf hdisj
      have h₁ : dat₁ = dat := by
        rw [hdat] at hdat₁
        simpa using hdat₁.symm
      subst h₁
      refine ⟨hiff₁, ?_⟩
      intro me' dat' hwf' hdisj' hbase hsame hdat' k
      have hne' : me'.DataCluster ≠ [] := by
        intro hnil
        have hnone : me'.GetAllData = (none, none) := by simp [DataManager.GetAllData, hnil]
        rw [hnone] at hdat'
        simp at hdat'
      obtain ⟨dat₂, hdat₂, hiff₂⟩ := GetAllData_by_lookups me' hne' hwf' hdisj'
      have h₂ : dat₂ = dat' := by
        rw [hdat'] at hdat₂
        simpa using hdat₂.symm
      subst h₂
      apply Option.ext
      intro v
      show GoMap.lookup dat₂ k = some v ↔ GoMap.lookup dat₁ k = some v
      rw [hiff₂ k v, hiff₁ k v, hbase]
      simp only [hsame]

/-- C20, at concrete inputs: two records without a common field name, and two
records that both have a field `doc`, of which the value visited last is
kept. -/
theorem GetAllData_flattens_witness :
    storeS1S2.GetAllData
      = (some [("name", Value.str "Alice"), ("doc", Value.file docA), ("age", Value.num 30)],
          none) ∧
    (NewDataManager "/data").GetAllData = (none, none) ∧
    DataManager.GetAllData
        { DataCluster :=
            [("s1", some [("doc", Value.file docA)]), ("s2", some [("doc", Value.str "text")])],
          BaseFilePath := "/data", madeFileInfos := false }
      = (some [("doc", Value.str "text")], none) :=
  ⟨rfl, (GetAllData_flattens (NewDataManager "/data")).1 rfl, rfl⟩

/-! ## Map objects -/

theorem assignObject_same (objects : Nat → GoMap Value) (a : Nat) (c : GoMap Value) :
    assignObject objects a c a = c := by
  simp [assignObject]

theorem assignObject_other (objects : Nat → GoMap Value) (a b : Nat) (c : GoMap Value)
    (h : b ≠ a) : assignObject objects a c b = objects b := by
  simp [assignObject, h]

theorem assignObject_comm (objects : Nat → GoMap Value) (a b : Nat) (c d : GoMap Value)
    (h : a ≠ b) :
    assignObject (assignObject objects a c) b d = assignObject (assignObject objects b d) a c := by
  funext x
  by_cases hxa : x = a
  · have hxb : x ≠ b := fun e => h (hxa.symm.trans e)
    simp [assignObject, hxa, h]
  · by_cases hxb : x = b
    · subst hxb
      simp [assignObject, hxa]
    · simp [assignObject, hxa, hxb]

theorem heap_record_of_lookup (me : HeapDataManager) (formID : String) (r : MapRef)
    (h : GoMap.lookup me.DataCluster formID = some r) : me.record formID = r := by
  simp [HeapDataManager.record, h]

theorem heap_lookup_of_record (me : HeapDataManager) (formID : String) (a : Nat)
    (h : me.record formID = some a) : GoMap.lookup me.DataCluster formID = some (some a) := by
  unfold HeapDataManager.record at h
  cases hl : GoMap.lookup me.DataCluster formID with
  | none => simp [hl] at h
  | some r =>
    simp only [hl] at h
    rw [h]

/-! ## PutDataFile on the store with shared records -/

theorem heap_ensureRecord_lookup (me : HeapDataManager) (formID : String) :
    GoMap.lookup (me.ensureRecord formID).2.DataCluster formID
      = some (some (me.ensureRecord formID).1) := by
  unfold HeapDataManager.ensureRecord
  cases hr : me.record formID with
  | none => simp [GoMap.lookup_store_same]
  | some a => simpa using heap_lookup_of_record me formID a hr

theorem heap_ensureRecord_other (me : HeapDataManager) (formID other : String)
    (h : other ≠ formID) :
    GoMap.lookup (me.ensureRecord formID).2.DataCluster other
      = GoMap.lookup me.DataCluster other := by
  unfold HeapDataManager.ensureRecord
  cases me.record formID <;> simp [GoMap.lookup_store_other _ _ _ _ h]

theorem heap_ensureRecord_field (me : HeapDataManager) (formID k : String) :
    GoMap.lookup ((me.ensureRecord formID).2.objects (me.ensureRecord formID).1) k
      = (me.content formID).field k := by
  unfold HeapDataManager.ensureRecord HeapDataManager.content HeapDataManager.deref
  cases hr : me.record formID with
  | none => simp [assignObject_same, file.MapIO.field, GoMap.lookup]
  | some a => simp [file.MapIO.field]

/-- A map object other than the one of `formID` keeps its content through the
head of `PutDataFile`, and is not the map `formDataMap` refers to. -/
theorem heap_ensureRecord_object (me : HeapDataManager) (formID : String) (b : Nat)
    (hb : b < me.next) (hne : me.record formID ≠ some b) :
    (me.ensureRecord formID).2.objects b = me.objects b ∧ b ≠ (me.ensureRecord formID).1 := by
  unfold HeapDataManager.ensureRecord
  cases hr : me.record formID with
  | none =>
    have hbn : b ≠ me.next := Nat.ne_of_lt hb
    exact ⟨assignObject_other _ _ _ _ hbn, hbn⟩
  | some a =>
    refine ⟨rfl, ?_⟩
    intro hba
    apply hne
    rw [hr, hba]

theorem heap_GetDataFile_cases (me : HeapDataManager) (formID name : String) :
    (me.GetDataFile formID name).1 = none ∨
      ∃ d, me.GetDataFile formID name = (some d, none) := by
  unfold HeapDataManager.GetDataFile
  by_cases h : formID ≠ "" ∧ name ≠ ""
  · rw [if_pos h]
    cases GoMap.lookup me.DataCluster formID with
    | none => exact Or.inl rfl
    | some mapIo =>
      cases hg : file.MapIO.GetFileInfo (me.deref mapIo) me.BaseFilePath name with
      | none => exact Or.inl (by simp only [hg])
      | some fi => exact Or.inr ⟨fi, by simp only [hg]⟩
  · rw [if_neg h]
    exact Or.inl rfl

/-- When `GetDataFile` gives no descriptor, `PutDataFile` takes the branch that
creates one and assigns it into the map object of `formID`. -/
theorem heap_PutDataFile_create (me : HeapDataManager) (fs : Disk) (formID name : String)
    (f : file.Meta) (reader : Reader) (uid : String)
    (h : (me.GetDataFile formID name).1 = none) :
    me.PutDataFile fs formID name f reader uid =
      ({ (me.ensureRecord formID).2 with
          objects := assignObject (me.ensureRecord formID).2.objects (me.ensureRecord formID).1
            (GoMap.store ((me.ensureRecord formID).2.objects (me.ensureRecord formID).1) name
              (Value.file ((file.New me.BaseFilePath f uid).Write fs reader).1)) },
        ((file.New me.BaseFilePath f uid).Write fs reader).2.1,
        ((file.New me.BaseFilePath f uid).Write fs reader).2.2.1,
        ((file.New me.BaseFilePath f uid).Write fs reader).2.2.2) := by
  unfold HeapDataManager.PutDataFile
  simp only [h]
  cases os.IsNotExist (me.GetDataFile formID name).2 <;> rfl

theorem heap_ensureRecord_base (me : HeapDataManager) (formID : String) :
    (me.ensureRecord formID).2.BaseFilePath = me.BaseFilePath := by
  unfold HeapDataManager.ensureRecord
  cases me.record formID <;> rfl

/-- C6, the claim as stated fails: in the store in which `a` and `b` hold the
same map object, `GetDataFile("a", "doc")` returns not-found, `PutDataFile("a",
"doc", meta, reader)` succeeds, and afterwards the record of the other
identifier `b`, empty before, has the field `doc`. -/
theorem PutDataFile_changes_shared_record :
    sharedStore.DataCluster = [("a", some 0), ("b", some 0)] ∧
    sharedStore.GetDataFile "a" "doc" = (none, some Error.ErrNotExist) ∧
    (sharedStore.PutDataFile emptyDisk "a" "doc" pdfB bytesB "u2").2.2.2 = none ∧
    sharedStore.content "b" = some [] ∧
    (sharedStore.PutDataFile emptyDisk "a" "doc" pdfB bytesB "u2").1.content "b"
      = some [("doc", Value.file
          { baseFilePath := "/data", path := "u2", name := "b.pdf",
            contentType := "application/pdf", size := 2 })] ∧
    (sharedStore.PutDataFile emptyDisk "a" "doc" pdfB bytesB "u2").1.content "b"
      ≠ sharedStore.content "b" := by
  refine ⟨rfl, rfl, rfl, rfl, rfl, ?_⟩
  intro h
  have h1 : (sharedStore.PutDataFile emptyDisk "a" "doc" pdfB bytesB "u2").1.content "b"
      = some [("doc", Value.file
          { baseFilePath := "/data", path := "u2", name := "b.pdf",
            contentType := "application/pdf", size := 2 })] := rfl
  have h2 : sharedStore.content "b" = some [] := rfl
  rw [h1, h2] at h
  simp at h

/-- C6, amended: when `GetDataFile(formID, name)` returns not-found for
non-empty keys, then after `PutDataFile(formID, name, meta, reader)` succeeds
the store has a record for `formID`, `GetDataFile` returns the newly created
descriptor (base directory of the store, the generated path) with the name and
content type of `meta`, every other field of the record is unchanged, every
other identifier holds the reference it held, and the record of every other
identifier that does not hold the map object of `formID` is unchanged. -/
theorem PutDataFile_creates_in_own_record (me : HeapDataManager) (fs : Disk)
    (formID name : String) (f : file.Meta) (reader : Reader) (uid : String)
    (hid : formID ≠ "") (hname : name ≠ "") (hwf : me.WF)
    (hget : me.GetDataFile formID name = (none, some Error.ErrNotExist))
    (_hok : (me.PutDataFile fs formID name f reader uid).2.2.2 = none) :
    (∃ a, GoMap.lookup (me.PutDataFile fs formID name f reader uid).1.DataCluster formID
        = some (some a)) ∧
    (∃ d' : file.IO,
      (me.PutDataFile fs formID name f reader uid).1.GetDataFile formID name = (some d', none) ∧
      d'.name = f.Name ∧ d'.contentType = f.ContentType ∧
      d'.baseFilePath = me.BaseFilePath ∧ d'.path = uid) ∧
    (∀ k, k ≠ name →
      ((me.PutDataFile fs formID name f reader uid).1.content formID).field k
        = (me.content formID).field k) ∧
    (∀ other, other ≠ formID →
      GoMap.lookup (me.PutDataFile fs formID name f reader uid).1.DataCluster other
          = GoMap.lookup me.DataCluster other ∧
      ((∀ a, me.record other = some a → me.record formID ≠ some a) →
        (me.PutDataFile fs formID name f reader uid).1.content other = me.content other)) := by
  have hnone : (me.GetDataFile formID name).1 = none := by rw [hget]
  rw [heap_PutDataFile_create me fs formID name f reader uid hnone]
  have hk := Write_keeps (file.New me.BaseFilePath f uid) fs reader
  have hl := heap_ensureRecord_lookup me formID
  refine ⟨⟨_, hl⟩, ?_, ?_, ?_⟩
  · refine ⟨((file.New me.BaseFilePath f uid).Write fs reader).1, ?_, ?_, ?_, ?_, ?_⟩
    · simp only [HeapDataManager.GetDataFile, hid, hname, ne_eq, not_false_eq_true, and_self,
        if_true, hl, HeapDataManager.deref, Option.map_some', assignObject_same,
        file.MapIO.GetFileInfo, GoMap.lookup_store_same, heap_ensureRecord_base]
    · rw [hk.2.2.1]
      rfl
    · rw [hk.2.2.2.1]
      rfl
    · rw [hk.1]
      rfl
    · rw [hk.2.1]
      rfl
  · intro k hkn
    have hrec := heap_record_of_lookup _ formID _ hl
    simp only [HeapDataManager.content, HeapDataManager.record, hl, HeapDataManager.deref,
      Option.map_some', assignObject_same, file.MapIO.field]
    rw [GoMap.lookup_store_other _ _ _ _ hkn, heap_ensureRecord_field]
    rfl
  · intro other ho
    have hlo := heap_ensureRecord_other me formID other ho
    refine ⟨hlo, ?_⟩
    intro hapart
    simp only [HeapDataManager.content, HeapDataManager.record, hlo, HeapDataManager.deref]
    cases hr : GoMap.lookup me.DataCluster other with
    | none => rfl
    | some r =>
      cases r with
      | none => rfl
      | some b =>
        have hb : b < me.next := hwf other b hr
        have hne : me.record formID ≠ some b :=
          hapart b (heap_record_of_lookup me other _ hr)
        obtain ⟨hobj, hba⟩ := heap_ensureRecord_object me formID b hb hne
        simp only [Option.map_some', assignObject_other _ _ _ _ hba, hobj]

/-- C6 amended, at a concrete input: `a` and `b` hold one map object and `c` a
map object of its own; the first upload to `doc` of `c` leaves the records of
`a` and `b` as they were. -/
theorem PutDataFile_creates_in_own_record_witness :
    (sharedStoreC.PutDataFile emptyDisk "c" "doc" pdfB bytesB "u2").1.content "b" = some [] ∧
    ∃ d' : file.IO,
      (sharedStoreC.PutDataFile emptyDisk "c" "doc" pdfB bytesB "u2").1.GetDataFile "c" "doc"
        = (some d', none) ∧
      d'.name = "b.pdf" :=
  ⟨((PutDataFile_creates_in_own_record sharedStoreC emptyDisk "c" "doc" pdfB bytesB "u2"
      (by decide) (by decide)
      (by
        intro formID a h
        have hc : sharedStoreC.DataCluster = [("a", some 0), ("b", some 0), ("c", some 1)] := rfl
        have hn : sharedStoreC.next = 2 := rfl
        rw [hc] at h
        rw [hn]
        simp only [GoMap.lookup] at h
        split_ifs at h <;> simp at h <;> omega)
      rfl rfl).2.2.2 "b" (by decide)).2
      (by
        intro a ha hc
        have h1 : sharedStoreC.record "b" = some 0 := rfl
        have h2 : sharedStoreC.record "c" = some 1 := rfl
        rw [h1] at ha
        rw [h2] at hc
        cases ha
        cases hc),
    (PutDataFile_creates_in_own_record sharedStoreC emptyDisk "c" "doc" pdfB bytesB "u2"
      (by decide) (by decide)
      (by
        intro formID a h
        have hc : sharedStoreC.DataCluster = [("a", some 0), ("b", some 0), ("c", some 1)] := rfl
        have hn : sharedStoreC.next = 2 := rfl
        rw [hc] at h
        rw [hn]
        simp only [GoMap.lookup] at h
        split_ifs at h <;> simp at h <;> omega)
      rfl rfl).2.1.imp fun d' h => ⟨h.1, h.2.1⟩⟩

/-! ## PutData on the store with shared records -/

theorem heap_PutData_object (me : HeapDataManager) (formID : String) (dat : GoMap Value)
    (a : Nat) (hid : formID ≠ "")
    (hl : GoMap.lookup me.DataCluster formID = some (some a)) :
    me.PutData formID dat =
      Except.ok ({ me with
        objects := assignObject me.objects a
          (dat.foldl (fun acc e => GoMap.store acc e.1 e.2) (me.objects a)) }, none) := by
  simp [HeapDataManager.PutData, hid, hl, MapRef.MergeWith]

theorem heap_PutData_nil (me : HeapDataManager) (formID : String) (dat : GoMap Value)
    (hid : formID ≠ "") (hl : GoMap.lookup me.DataCluster formID = some none) :
    me.PutData formID dat =
      match dat with
      | [] => Except.ok (me, none)
      | _ :: _ => Except.error Panic.assignmentToNilMap := by
  cases dat <;> simp [HeapDataManager.PutData, hid, hl, MapRef.MergeWith]

theorem heap_PutData_new (me : HeapDataManager) (formID : String) (dat : GoMap Value)
    (hid : formID ≠ "") (hl : GoMap.lookup me.DataCluster formID = none) :
    me.PutData formID dat =
      Except.ok ({ me with
        objects := assignObject me.objects me.next
          (dat.foldl (fun acc e => GoMap.store acc e.1 e.2) []),
        next := me.next + 1,
        DataCluster := GoMap.store me.DataCluster formID (some me.next) }, none) := by
  have hobj : assignObject (assignObject me.objects me.next []) me.next
      (dat.foldl (fun acc e => GoMap.store acc e.1 e.2)
        (assignObject me.objects me.next [] me.next))
      = assignObject me.objects me.next
          (dat.foldl (fun acc e => GoMap.store acc e.1 e.2) []) := by
    funext x
    by_cases hx : x = me.next <;> simp [assignObject, hx]
  simp [HeapDataManager.PutData, hid, hl, MapRef.MergeWith, hobj]

/-- A `PutData` that returns for a non-empty identifier returns a nil error and
leaves the references of all other identifiers, the base directory and the flag
as they were. -/
theorem heap_PutData_frame (me me' : HeapDataManager) (formID other : String)
    (dat : GoMap Value) (err : Option Error) (hid : formID ≠ "") (ho : other ≠ formID)
    (h : me.PutData formID dat = Except.ok (me', err)) :
    err = none ∧ GoMap.lookup me'.DataCluster other = GoMap.lookup me.DataCluster other ∧
    me'.BaseFilePath = me.BaseFilePath ∧ me'.madeFileInfos = me.madeFileInfos := by
  cases hl : GoMap.lookup me.DataCluster formID with
  | none =>
    rw [heap_PutData_new me formID dat hid hl] at h
    simp only [Except.ok.injEq, Prod.mk.injEq] at h
    obtain ⟨h1, h2⟩ := h
    subst h1
    exact ⟨h2.symm, GoMap.lookup_store_other _ _ _ _ ho, rfl, rfl⟩
  | some r =>
    cases r with
    | none =>
      rw [heap_PutData_nil me formID dat hid hl] at h
      cases dat with
      | nil =>
        simp only [Except.ok.injEq, Prod.mk.injEq] at h
        obtain ⟨h1, h2⟩ := h
        subst h1
        exact ⟨h2.symm, rfl, rfl, rfl⟩
      | cons e t => cases h
    | some a =>
      rw [heap_PutData_object me formID dat a hid hl] at h
      simp only [Except.ok.injEq, Prod.mk.injEq] at h
      obtain ⟨h1, h2⟩ := h
      subst h1
      exact ⟨h2.symm, rfl, rfl, rfl⟩

theorem heap_entry_eq (me : HeapDataManager) (formID : String) :
    me.entry formID = (GoMap.lookup me.DataCluster formID).map (fun r => r.map me.objects) :=
  rfl

theorem heap_entry_congr (me me' : HeapDataManager) (formID : String)
    (hl : GoMap.lookup me'.DataCluster formID = GoMap.lookup me.DataCluster formID)
    (ho : ∀ b, GoMap.lookup me.DataCluster formID = some (some b) →
      me'.objects b = me.objects b) :
    me'.entry formID = me.entry formID := by
  rw [heap_entry_eq, heap_entry_eq, hl]
  cases hr : GoMap.lookup me.DataCluster formID with
  | none => rfl
  | some r =>
    cases r with
    | none => rfl
    | some b => simp [ho b hr]

/-- A `PutData(A, DA)` that returns leaves the entry of every identifier that
does not hold the map object of `A` as it was. -/
theorem heap_PutData_other_entry (me me' : HeapDataManager) (A B : String)
    (DA : GoMap Value) (err : Option Error) (hA : A ≠ "") (hBA : B ≠ A) (hwf : me.WF)
    (hapart : ∀ a, me.record A = some a → me.record B ≠ some a)
    (h : me.PutData A DA = Except.ok (me', err)) :
    me'.entry B = me.entry B := by
  have hframe := heap_PutData_frame me me' A B DA err hA hBA h
  apply heap_entry_congr me me' B hframe.2.1
  intro b hb
  have hbn : b < me.next := hwf B b hb
  cases hl : GoMap.lookup me.DataCluster A with
  | none =>
    rw [heap_PutData_new me A DA hA hl] at h
    simp only [Except.ok.injEq, Prod.mk.injEq] at h
    rw [← h.1]
    exact assignObject_other _ _ _ _ (Nat.ne_of_lt hbn)
  | some r =>
    cases r with
    | none =>
      rw [heap_PutData_nil me A DA hA hl] at h
      cases DA with
      | nil =>
        simp only [Except.ok.injEq, Prod.mk.injEq] at h
        rw [← h.1]
      | cons e t => cases h
    | some a =>
      rw [heap_PutData_object me A DA a hA hl] at h
      simp only [Except.ok.injEq, Prod.mk.injEq] at h
      rw [← h.1]
      have hne : b ≠ a := by
        intro hba
        apply hapart a (heap_record_of_lookup me A _ hl)
        rw [heap_record_of_lookup me B _ hb, hba]
      exact assignObject_other _ _ _ _ hne

/-- The two orders of `PutData` on two identifiers of which neither has an
entry: each gets a new map object, and the entries agree. -/
theorem heap_PutData_both_new (me : HeapDataManager) (A B : String) (cA cB : GoMap Value)
    (hAB : A ≠ B) (hwf : me.WF) (formID : String) :
    HeapDataManager.entry
        { me with
          objects := assignObject (assignObject me.objects me.next cA) (me.next + 1) cB,
          next := me.next + 1 + 1,
          DataCluster :=
            GoMap.store (GoMap.store me.DataCluster A (some me.next)) B (some (me.next + 1)) }
        formID
      = HeapDataManager.entry
        { me with
          objects := assignObject (assignObject me.objects me.next cB) (me.next + 1) cA,
          next := me.next + 1 + 1,
          DataCluster :=
            GoMap.store (GoMap.store me.DataCluster B (some me.next)) A (some (me.next + 1)) }
        formID := by
  have hBA : B ≠ A := fun h => hAB h.symm
  have hn : me.next ≠ me.next + 1 := Nat.ne_of_lt (Nat.lt_succ_self _)
  simp only [heap_entry_eq]
  by_cases h1 : formID = A
  · subst h1
    rw [GoMap.lookup_store_other _ _ _ _ hAB, GoMap.lookup_store_same, GoMap.lookup_store_same]
    simp [assignObject_same, assignObject_other _ _ _ _ hn]
  · by_cases h2 : formID = B
    · subst h2
      rw [GoMap.lookup_store_same, GoMap.lookup_store_other _ _ _ _ h1, GoMap.lookup_store_same]
      simp [assignObject_same, assignObject_other _ _ _ _ hn]
    · rw [GoMap.lookup_store_other _ _ _ _ h2, GoMap.lookup_store_other _ _ _ _ h1,
        GoMap.lookup_store_other _ _ _ _ h1, GoMap.lookup_store_other _ _ _ _ h2]
      cases hr : GoMap.lookup me.DataCluster formID with
      | none => rfl
      | some r =>
        cases r with
        | none => rfl
        | some c =>
          have hc : c < me.next := hwf formID c hr
          have hc0 : c ≠ me.next := Nat.ne_of_lt hc
          have hc1 : c ≠ me.next + 1 := Nat.ne_of_lt (Nat.lt_succ_of_lt hc)
          simp [assignObject_other _ _ _ _ hc0, assignObject_other _ _ _ _ hc1]

/-- C17, amended: for distinct non-empty identifiers `A` and `B` that do not
hold the same map object, a `PutData(A, DA)` that returns leaves the reference
and the record of `B` unchanged; and when `PutData(A, DA)` followed by
`PutData(B, DB)` returns, so does the other order, both orders end in the same
store (the same record under every identifier, the same base directory and
flag), and in it the record of each of the two is the one its own merge alone
gives. -/
theorem PutData_unshared_ids_commute (me : HeapDataManager) (A B : String)
    (DA DB : GoMap Value) (hA : A ≠ "") (hB : B ≠ "") (hAB : A ≠ B) (hwf : me.WF)
    (hapart : ∀ a, me.record A = some a → me.record B ≠ some a) :
    (∀ me' err, me.PutData A DA = Except.ok (me', err) →
      GoMap.lookup me'.DataCluster B = GoMap.lookup me.DataCluster B ∧
      me'.entry B = me.entry B) ∧
    (∀ sA sAB eA eAB, me.PutData A DA = Except.ok (sA, eA) →
      sA.PutData B DB = Except.ok (sAB, eAB) →
      ∃ sB sBA, me.PutData B DB = Except.ok (sB, none) ∧
        sB.PutData A DA = Except.ok (sBA, none) ∧
        (∀ formID, sAB.entry formID = sBA.entry formID) ∧
        sAB.BaseFilePath = sBA.BaseFilePath ∧ sAB.madeFileInfos = sBA.madeFileInfos ∧
        sAB.entry A = sA.entry A ∧ sAB.entry B = sB.entry B) := by
  have hBA : B ≠ A := fun h => hAB h.symm
  have hapart' : ∀ b, me.record B = some b → me.record A ≠ some b := by
    intro b hb ha
    exact hapart b ha hb
  refine ⟨?_, ?_⟩
  · intro me' err h
    exact ⟨(heap_PutData_frame me me' A B DA err hA hBA h).2.1,
      heap_PutData_other_entry me me' A B DA err hA hBA hwf hapart h⟩
  · intro sA sAB eA eAB h1 h2
    have fA := heap_PutData_frame me sA A B DA eA hA hBA h1
    cases hlA : GoMap.lookup me.DataCluster A with
    | none =>
      rw [heap_PutData_new me A DA hA hlA] at h1
      simp only [Except.ok.injEq, Prod.mk.injEq] at h1
      obtain ⟨h1, _⟩ := h1
      subst h1
      cases hlB : GoMap.lookup me.DataCluster B with
      | none =>
        have hlB' : GoMap.lookup (GoMap.store me.DataCluster A (some me.next)) B = none := by
          rw [GoMap.lookup_store_other _ _ _ _ hBA, hlB]
        rw [heap_PutData_new _ B DB hB hlB'] at h2
        simp only [Except.ok.injEq, Prod.mk.injEq] at h2
        obtain ⟨h2, _⟩ := h2
        subst h2
        have hlA' : GoMap.lookup (GoMap.store me.DataCluster B (some me.next)) A = none := by
          rw [GoMap.lookup_store_other _ _ _ _ hAB, hlA]
        refine ⟨_, _, heap_PutData_new me B DB hB hlB, heap_PutData_new _ A DA hA hlA',
          ?_, rfl, rfl, ?_, ?_⟩
        · intro formID
          exact heap_PutData_both_new me A B _ _ hAB hwf formID
        · simp only [heap_entry_eq, GoMap.lookup_store_other _ _ _ _ hAB, GoMap.lookup_store_same,
            Option.map_some', assignObject_other _ _ _ _ (Nat.ne_of_lt (Nat.lt_succ_self me.next))]
        · simp only [heap_entry_eq, GoMap.lookup_store_same, Option.map_some', assignObject_same]
      | some r =>
        have hlB' : GoMap.lookup (GoMap.store me.DataCluster A (some me.next)) B = some r := by
          rw [GoMap.lookup_store_other _ _ _ _ hBA, hlB]
        cases r with
        | none =>
          rw [heap_PutData_nil _ B DB hB hlB'] at h2
          cases DB with
          | cons e t => cases h2
          | nil =>
            simp only [Except.ok.injEq, Prod.mk.injEq] at h2
            obtain ⟨h2, _⟩ := h2
            subst h2
            refine ⟨me, _, heap_PutData_nil me B [] hB hlB, heap_PutData_new me A DA hA hlA,
              fun _ => rfl, rfl, rfl, rfl, ?_⟩
            simp only [heap_entry_eq, GoMap.lookup_store_other _ _ _ _ hBA, hlB,
              Option.map_some', Option.map_none']
        | some b =>
          have hbn : b ≠ me.next := Nat.ne_of_lt (hwf B b hlB)
          rw [heap_PutData_object _ B DB b hB hlB'] at h2
          simp only [Except.ok.injEq, Prod.mk.injEq] at h2
          obtain ⟨h2, _⟩ := h2
          subst h2
          have hlA' : GoMap.lookup me.DataCluster A = none := hlA
          refine ⟨_, _, heap_PutData_object me B DB b hB hlB, heap_PutData_new _ A DA hA hlA',
            ?_, rfl, rfl, ?_, ?_⟩
          · intro formID
            simp only [heap_entry_eq, assignObject_other _ _ _ _ hbn,
              assignObject_comm _ _ _ _ _ hbn]
          · simp only [heap_entry_eq, GoMap.lookup_store_same, Option.map_some',
              assignObject_other _ _ _ _ hbn.symm, assignObject_same]
          · simp only [heap_entry_eq, GoMap.lookup_store_other _ _ _ _ hBA, hlB,
              Option.map_some', assignObject_same, assignObject_other _ _ _ _ hbn]
    | some rA =>
      cases rA with
      | none =>
        rw [heap_PutData_nil me A DA hA hlA] at h1
        cases DA with
        | cons e t => cases h1
        | nil =>
          simp only [Except.ok.injEq, Prod.mk.injEq] at h1
          obtain ⟨h1, _⟩ := h1
          subst h1
          have fB := heap_PutData_frame me sAB B A DB eAB hB hAB h2
          have heAB : eAB = none := fB.1
          subst heAB
          have hlA' : GoMap.lookup sAB.DataCluster A = some none := by
            rw [fB.2.1, hlA]
          refine ⟨sAB, sAB, h2, heap_PutData_nil sAB A [] hA hlA', fun _ => rfl, rfl, rfl,
            ?_, rfl⟩
          exact heap_PutData_other_entry me sAB B A DB none hB hAB hwf hapart' h2
      | some a =>
        have han : a ≠ me.next := Nat.ne_of_lt (hwf A a hlA)
        rw [heap_PutData_object me A DA a hA hlA] at h1
        simp only [Except.ok.injEq, Prod.mk.injEq] at h1
        obtain ⟨h1, _⟩ := h1
        cases hlB : GoMap.lookup me.DataCluster B with
        | none =>
          have hlB' : GoMap.lookup sA.DataCluster B = none := by rw [fA.2.1, hlB]
          rw [heap_PutData_new sA B DB hB hlB'] at h2
          simp only [Except.ok.injEq, Prod.mk.injEq] at h2
          obtain ⟨h2, _⟩ := h2
          subst h2
          subst h1
          have hlA' : GoMap.lookup (GoMap.store me.DataCluster B (some me.next)) A
              = some (some a) := by
            rw [GoMap.lookup_store_other _ _ _ _ hAB, hlA]
          refine ⟨_, _, heap_PutData_new me B DB hB hlB, heap_PutData_object _ A DA a hA hlA',
            ?_, rfl, rfl, ?_, ?_⟩
          · intro formID
            simp only [heap_entry_eq, assignObject_other _ _ _ _ han,
              assignObject_comm _ _ _ _ _ han]
          · simp only [heap_entry_eq, GoMap.lookup_store_other _ _ _ _ hAB, hlA,
              Option.map_some', assignObject_same, assignObject_other _ _ _ _ han]
          · simp only [heap_entry_eq, GoMap.lookup_store_same, Option.map_some',
              assignObject_same]
        | some r =>
          cases r with
          | none =>
            have hlB' : GoMap.lookup sA.DataCluster B = some none := by rw [fA.2.1, hlB]
            rw [heap_PutData_nil sA B DB hB hlB'] at h2
            cases DB with
            | cons e t => cases h2
            | nil =>
              simp only [Except.ok.injEq, Prod.mk.injEq] at h2
              obtain ⟨h2, _⟩ := h2
              subst h2
              subst h1
              refine ⟨me, _, heap_PutData_nil me B [] hB hlB,
                heap_PutData_object me A DA a hA hlA, fun _ => rfl, rfl, rfl, rfl, ?_⟩
              simp only [heap_entry_eq, hlB, Option.map_some', Option.map_none']
          | some b =>
            have hab : a ≠ b := by
              intro h
              apply hapart a (heap_record_of_lookup me A _ hlA)
              rw [heap_record_of_lookup me B _ hlB, h]
            have hlB' : GoMap.lookup sA.DataCluster B = some (some b) := by rw [fA.2.1, hlB]
            rw [heap_PutData_object sA B DB b hB hlB'] at h2
            simp only [Except.ok.injEq, Prod.mk.injEq] at h2
            obtain ⟨h2, _⟩ := h2
            subst h2
            subst h1
            have hlA' : GoMap.lookup me.DataCluster A = some (some a) := hlA
            refine ⟨_, _, heap_PutData_object me B DB b hB hlB,
              heap_PutData_object _ A DA a hA hlA', ?_, rfl, rfl, ?_, ?_⟩
            · intro formID
              simp only [heap_entry_eq, assignObject_other _ _ _ _ hab,
                assignObject_other _ _ _ _ hab.symm, assignObject_comm _ _ _ _ _ hab]
            · simp only [heap_entry_eq, hlA, Option.map_some', assignObject_same,
                assignObject_other _ _ _ _ hab]
            · simp only [heap_entry_eq, hlB, Option.map_some', assignObject_same,
                assignObject_other _ _ _ _ hab.symm]

theorem sharedStoreC_WF : sharedStoreC.WF := by
  intro formID a h
  have hc : sharedStoreC.DataCluster = [("a", some 0), ("b", some 0), ("c", some 1)] := rfl
  have hn : sharedStoreC.next = 2 := rfl
  rw [hc] at h
  rw [hn]
  simp only [GoMap.lookup] at h
  split_ifs at h <;> simp at h <;> omega

/-- C17, the claim as stated fails: in the store in which `a` and `b` hold the
same map object, `PutData("a", {x: 1})` changes the record of `b`, and the two
orders of `PutData("a", {x: 1})` and `PutData("b", {x: 2})` end in different
stores (`x` is 2 after the one, 1 after the other, under both identifiers).
And in the store in which `a` has a nil record, `PutData("a", {x: 1})` does not
return. -/
theorem PutData_changes_shared_record :
    sharedStore.DataCluster = [("a", some 0), ("b", some 0)] ∧
    sharedStore.content "b" = some [] ∧
    (sharedStore.PutData "a" [("x", Value.num 1)]).map (fun s => s.1.content "b")
      = Except.ok (some [("x", Value.num 1)]) ∧
    (sharedStore.PutData "a" [("x", Value.num 1)] >>=
        fun s => s.1.PutData "b" [("x", Value.num 2)]).map
        (fun s => (s.1.content "a", s.1.content "b"))
      = Except.ok (some [("x", Value.num 2)], some [("x", Value.num 2)]) ∧
    (sharedStore.PutData "b" [("x", Value.num 2)] >>=
        fun s => s.1.PutData "a" [("x", Value.num 1)]).map
        (fun s => (s.1.content "a", s.1.content "b"))
      = Except.ok (some [("x", Value.num 1)], some [("x", Value.num 1)]) ∧
    heapNilRecord.PutData "a" [("x", Value.num 1)] = Except.error Panic.assignmentToNilMap :=
  ⟨rfl, rfl, rfl, rfl, rfl, rfl⟩

/-- C17 amended, at a concrete input: `a` and `c` hold map objects of their own
(`a` shares its object with `b`); `x` is merged into `a` and `y` into `c`, in
both orders. -/
theorem PutData_unshared_ids_commute_witness :
    ∃ sB sBA, sharedStoreC.PutData "c" [("y", Value.num 2)] = Except.ok (sB, none) ∧
      sB.PutData "a" [("x", Value.num 1)] = Except.ok (sBA, none) ∧
      sBA.entry "a" = some (some [("x", Value.num 1)]) ∧
      sBA.entry "b" = some (some [("x", Value.num 1)]) ∧
      sBA.entry "c" = some (some [("y", Value.num 2)]) := by
  obtain ⟨sB, sBA, h1, h2, hsame, _, _, _, _⟩ :=
    (PutData_unshared_ids_commute sharedStoreC "a" "c" [("x", Value.num 1)]
      [("y", Value.num 2)] (by decide) (by decide) (by decide) sharedStoreC_WF
      (by
        intro a ha hc
        have h1 : sharedStoreC.record "a" = some 0 := rfl
        have h2 : sharedStoreC.record "c" = some 1 := rfl
        rw [h1] at ha
        rw [h2] at hc
        cases ha
        cases hc)).2
      { sharedStoreC with
        objects := assignObject sharedStoreC.objects 0 [("x", Value.num 1)] }
      { sharedStoreC with
        objects := assignObject (assignObject sharedStoreC.objects 0 [("x", Value.num 1)]) 1
          [("y", Value.num 2)] }
      none none rfl rfl
  exact ⟨sB, sBA, h1, h2, (hsame "a").symm.trans rfl, (hsame "b").symm.trans rfl,
    (hsame "c").symm.trans rfl⟩

/-! ## The two levels agree where no record is shared -/

theorem view_lookup (me : HeapDataManager) (formID : String) :
    GoMap.lookup me.view.DataCluster formID = me.entry formID := by
  unfold HeapDataManager.view HeapDataManager.entry
  exact GoMap.lookup_map_val me.DataCluster me.deref formID

theorem view_record (me : HeapDataManager) (formID : String) :
    me.view.record formID = me.content formID := by
  unfold DataManager.record HeapDataManager.content HeapDataManager.record
  rw [view_lookup, heap_entry_eq]
  cases GoMap.lookup me.DataCluster formID <;> rfl

/-- `GetData` returns the reference whose content the store by value holds. -/
theorem view_GetData (me : HeapDataManager) (formID : String) :
    me.view.GetData formID = (me.deref (me.GetData formID).1, (me.GetData formID).2) := by
  unfold DataManager.GetData HeapDataManager.GetData
  by_cases hid : formID ≠ ""
  · rw [if_pos hid, if_pos hid, view_record]
    rfl
  · rw [if_neg hid, if_neg hid]
    rfl

theorem view_GetDataFile (me : HeapDataManager) (formID name : String) :
    me.view.GetDataFile formID name = me.GetDataFile formID name := by
  unfold DataManager.GetDataFile HeapDataManager.GetDataFile
  rw [view_lookup, heap_entry_eq]
  by_cases h : formID ≠ "" ∧ name ≠ ""
  · rw [if_pos h, if_pos h]
    cases GoMap.lookup me.DataCluster formID <;> rfl
  · rw [if_neg h, if_neg h]

/-- An entry other than the one written to reads the same after an assignment
to a map object it does not hold. -/
theorem heap_entry_assign_other (me : HeapDataManager) (cluster : GoMap MapRef)
    (objects : Nat → GoMap Value) (next : Nat) (formID : String)
    (hl : GoMap.lookup cluster formID = GoMap.lookup me.DataCluster formID)
    (ho : ∀ b, GoMap.lookup me.DataCluster formID = some (some b) → objects b = me.objects b) :
    HeapDataManager.entry
        { me with DataCluster := cluster, objects := objects, next := next } formID
      = me.entry formID :=
  heap_entry_congr me _ formID hl ho

/-- `PutDataWithoutMerge` on the store with shared records is, seen by value,
`PutDataWithoutMerge` with the content of the map passed. -/
theorem view_PutDataWithoutMerge (me : HeapDataManager) (formID : String) (dat : MapRef) :
    (me.PutDataWithoutMerge formID dat).2
      = (me.view.PutDataWithoutMerge formID (me.deref dat)).2 ∧
    ∀ other, (me.PutDataWithoutMerge formID dat).1.entry other
      = GoMap.lookup (me.view.PutDataWithoutMerge formID (me.deref dat)).1.DataCluster other := by
  unfold HeapDataManager.PutDataWithoutMerge DataManager.PutDataWithoutMerge
  by_cases hid : formID ≠ ""
  · rw [if_pos hid, if_pos hid]
    refine ⟨rfl, ?_⟩
    intro other
    simp only [heap_entry_eq]
    by_cases ho : other = formID
    · subst ho
      rw [GoMap.lookup_store_same, GoMap.lookup_store_same]
      rfl
    · rw [GoMap.lookup_store_other _ _ _ _ ho, GoMap.lookup_store_other _ _ _ _ ho, view_lookup,
        heap_entry_eq]
  · rw [if_neg hid, if_neg hid]
    refine ⟨rfl, ?_⟩
    intro other
    rw [view_lookup]

/-- `PutData` on the store with shared records is, seen by value, `PutData` of
the store by value, when the map object of `formID` is held by no other
identifier: both panic or both return, with the same error and the same record
under every identifier. -/
theorem view_PutData (me : HeapDataManager) (formID : String) (dat : GoMap Value)
    (hid : formID ≠ "") (hwf : me.WF) (hown : me.Own formID) :
    (me.PutData formID dat).map (fun r => r.2) = (me.view.PutData formID dat).map (fun r => r.2) ∧
    ∀ h' e v' e', me.PutData formID dat = Except.ok (h', e) →
      me.view.PutData formID dat = Except.ok (v', e') →
      ∀ other, h'.entry other = GoMap.lookup v'.DataCluster other := by
  have hmt : me.view.mergeTarget formID
      = match GoMap.lookup me.DataCluster formID with
        | some r => me.deref r
        | none => some [] := by
    unfold DataManager.mergeTarget
    rw [view_lookup, heap_entry_eq]
    cases GoMap.lookup me.DataCluster formID <;> rfl
  rw [PutData_eq_merge me.view formID dat hid, hmt]
  cases hl : GoMap.lookup me.DataCluster formID with
  | none =>
    rw [heap_PutData_new me formID dat hid hl]
    refine ⟨rfl, ?_⟩
    intro h' e v' e' hh hv
    simp only [file.MapIO.MergeWith, Except.ok.injEq, Prod.mk.injEq] at hh hv
    obtain ⟨hh, _⟩ := hh
    obtain ⟨hv, _⟩ := hv
    subst hh
    subst hv
    intro other
    by_cases ho : other = formID
    · subst ho
      simp only [heap_entry_eq, GoMap.lookup_store_same, Option.map_some', assignObject_same]
    · rw [GoMap.lookup_store_other _ _ _ _ ho, view_lookup]
      apply heap_entry_congr me _ other (GoMap.lookup_store_other _ _ _ _ ho)
      intro b hb
      exact assignObject_other _ _ _ _ (Nat.ne_of_lt (hwf other b hb))
  | some r =>
    cases r with
    | none =>
      rw [heap_PutData_nil me formID dat hid hl]
      cases dat with
      | cons d t => exact ⟨rfl, fun h' e v' e' hh => by cases hh⟩
      | nil =>
        refine ⟨rfl, ?_⟩
        intro h' e v' e' hh hv
        simp only [HeapDataManager.deref, Option.map_none', file.MapIO.MergeWith, Except.ok.injEq,
          Prod.mk.injEq] at hh hv
        obtain ⟨hh, _⟩ := hh
        obtain ⟨hv, _⟩ := hv
        subst hh
        subst hv
        intro other
        by_cases ho : other = formID
        · subst ho
          simp only [heap_entry_eq, hl, GoMap.lookup_store_same, Option.map_some',
            Option.map_none']
        · rw [GoMap.lookup_store_other _ _ _ _ ho, view_lookup]
    | some a =>
      rw [heap_PutData_object me formID dat a hid hl]
      refine ⟨rfl, ?_⟩
      intro h' e v' e' hh hv
      simp only [HeapDataManager.deref, Option.map_some', file.MapIO.MergeWith, Except.ok.injEq,
        Prod.mk.injEq] at hh hv
      obtain ⟨hh, _⟩ := hh
      obtain ⟨hv, _⟩ := hv
      subst hh
      subst hv
      intro other
      by_cases ho : other = formID
      · subst ho
        simp only [heap_entry_eq, hl, GoMap.lookup_store_same, Option.map_some',
          assignObject_same]
      · rw [GoMap.lookup_store_other _ _ _ _ ho, view_lookup]
        refine heap_entry_congr me _ other ?_ ?_
        · rfl
        intro b hb
        have hne : b ≠ a := by
          intro hba
          subst hba
          exact ho (hown other b hl hb)
        exact assignObject_other _ _ _ _ hne

/-- When `GetDataFile` gives a descriptor, `PutDataFile` takes the branch that
updates and overwrites it, and assigns it into the map object of `formID`. -/
theorem heap_PutDataFile_update (me : HeapDataManager) (fs : Disk) (formID name : String)
    (f : file.Meta) (reader : Reader) (uid : String) (d : file.IO)
    (h : me.GetDataFile formID name = (some d, none)) :
    me.PutDataFile fs formID name f reader uid =
      ({ (me.ensureRecord formID).2 with
          objects := assignObject (me.ensureRecord formID).2.objects (me.ensureRecord formID).1
            (GoMap.store ((me.ensureRecord formID).2.objects (me.ensureRecord formID).1) name
              (Value.file ((d.Update f.Name f.ContentType).Write fs reader).1)) },
        ((d.Update f.Name f.ContentType).Write fs reader).2.1,
        ((d.Update f.Name f.ContentType).Write fs reader).2.2.1,
        ((d.Update f.Name f.ContentType).Write fs reader).2.2.2) := by
  unfold HeapDataManager.PutDataFile
  simp only [h, os.IsNotExist]

theorem view_ensureRecord_map (me : HeapDataManager) (formID : String) :
    (me.view.ensureRecord formID).1
      = (me.ensureRecord formID).2.objects (me.ensureRecord formID).1 := by
  unfold DataManager.ensureRecord HeapDataManager.ensureRecord
  rw [view_record]
  unfold HeapDataManager.content HeapDataManager.deref
  cases hr : me.record formID with
  | none => simp [assignObject_same]
  | some a => simp

/-- The assignment to field `name` that ends `PutDataFile`, at the two levels:
the entries read the same when the map object of `formID` is held by no other
identifier. -/
theorem view_assign_field (me : HeapDataManager) (formID name : String) (v : Value)
    (hwf : me.WF) (hown : me.Own formID) (other : String) :
    HeapDataManager.entry
        { (me.ensureRecord formID).2 with
          objects := assignObject (me.ensureRecord formID).2.objects (me.ensureRecord formID).1
            (GoMap.store ((me.ensureRecord formID).2.objects (me.ensureRecord formID).1)
              name v) }
        other
      = GoMap.lookup
          (GoMap.store (me.view.ensureRecord formID).2 formID
            (some (GoMap.store (me.view.ensureRecord formID).1 name v))) other := by
  by_cases ho : other = formID
  · subst ho
    rw [GoMap.lookup_store_same, view_ensureRecord_map]
    simp only [heap_entry_eq, heap_ensureRecord_lookup, Option.map_some', assignObject_same]
  · rw [GoMap.lookup_store_other _ _ _ _ ho, ensureRecord_other me.view formID other ho,
      view_lookup]
    refine heap_entry_congr me _ other ?_ ?_
    · exact heap_ensureRecord_other me formID other ho
    · intro b hb
      have hne : me.record formID ≠ some b := by
        intro hr
        exact ho (hown other b (heap_lookup_of_record me formID b hr) hb)
      obtain ⟨hobj, hba⟩ := heap_ensureRecord_object me formID b (hwf other b hb) hne
      show assignObject _ _ _ b = me.objects b
      rw [assignObject_other _ _ _ _ hba, hobj]

/-- `PutDataFile` on the store with shared records is, seen by value,
`PutDataFile` of the store by value, when the map object of `formID` is held by
no other identifier: the same disk, bytes written and error, and the same
record under every identifier. -/
theorem view_PutDataFile (me : HeapDataManager) (fs : Disk) (formID name : String)
    (f : file.Meta) (reader : Reader) (uid : String) (hwf : me.WF) (hown : me.Own formID) :
    (me.PutDataFile fs formID name f reader uid).2
      = (me.view.PutDataFile fs formID name f reader uid).2 ∧
    ∀ other, (me.PutDataFile fs formID name f reader uid).1.entry other
      = GoMap.lookup (me.view.PutDataFile fs formID name f reader uid).1.DataCluster other := by
  rcases heap_GetDataFile_cases me formID name with h | ⟨d, h⟩
  · have hv : (me.view.GetDataFile formID name).1 = none := by rw [view_GetDataFile, h]
    rw [heap_PutDataFile_create me fs formID name f reader uid h,
      PutDataFile_create me.view fs formID name f reader uid hv]
    exact ⟨rfl, fun other => view_assign_field me formID name _ hwf hown other⟩
  · have hv : me.view.GetDataFile formID name = (some d, none) := by rw [view_GetDataFile, h]
    rw [heap_PutDataFile_update me fs formID name f reader uid d h,
      PutDataFile_update me.view fs formID name f reader uid d hv]
    exact ⟨rfl, fun other => view_assign_field me formID name _ hwf hown other⟩
